import Mathlib

set_option autoImplicit false

/-!
Shallow embedding of the boardroom decision pipeline
(`app/workflow/decision_workflow.py`, `app/workflow/gates.py`,
`app/agents/base.py`, `app/agents/cfo.py`, `app/agents/compliance.py`)
together with proofs of the gate, text-synthesis and adapter properties.

Strings are modelled as Lean `String`s (lists of unicode code points), which
matches Python `str` indexing/slicing semantics.  Python character classes
(`str.lower`, `\s`, `\w`, `\d`) are modelled over their ASCII fragments, which
cover every literal the source manipulates.
-/

namespace Boardroom

/-- ASCII whitespace, as used by Python `str.split()`, `str.strip()` and `\s`. -/
def pyIsSpace (c : Char) : Bool :=
  c == ' ' || c == '\t' || c == '\n' || c == '\r' || c == '\x0b' || c == '\x0c'

/-- Python `str.lower` on the ASCII range. -/
def pyLowerChar (c : Char) : Char :=
  if 'A' ≤ c ∧ c ≤ 'Z' then Char.ofNat (c.toNat + 32) else c

/-- Lowercase every character (Python `str.lower()`). -/
def pyLower (s : String) : String := ⟨s.data.map pyLowerChar⟩

/-- `leadMatches p cs` is true when `p` is a prefix of `cs` (Python `startswith`). -/
def leadMatches : List Char → List Char → Bool
  | [], _ => true
  | _ :: _, [] => false
  | p :: ps, c :: cs => p == c && leadMatches ps cs

/-- Substring containment (Python `needle in hay`). -/
def listContainsSub (needle : List Char) : List Char → Bool
  | [] => leadMatches needle []
  | c :: cs => leadMatches needle (c :: cs) || listContainsSub needle cs

/-- Python `needle in hay` on strings. -/
def strContains (hay needle : String) : Bool := listContainsSub needle.data hay.data

/-- Drop the given characters from the front of a list. -/
def dropLead (f : Char → Bool) (cs : List Char) : List Char := cs.dropWhile f

/-- Drop the given characters from the back of a list. -/
def dropTail (f : Char → Bool) (cs : List Char) : List Char :=
  ((cs.reverse).dropWhile f).reverse

/-- Python `str.strip(chars)`: drop from both ends. -/
def stripBoth (f : Char → Bool) (cs : List Char) : List Char :=
  dropTail f (dropLead f cs)

/-- Python `str.strip()` (whitespace). -/
def stripWs (cs : List Char) : List Char := stripBoth pyIsSpace cs

/-- Python `str.strip()` on a `String`. -/
def strStrip (s : String) : String := ⟨stripWs s.data⟩

theorem dropWhileLenLe {α : Type} (p : α → Bool) (l : List α) :
    (l.dropWhile p).length ≤ l.length := by
  induction l with
  | nil => simp [List.dropWhile]
  | cons a l ih =>
    simp only [List.dropWhile]
    split
    · exact Nat.le_succ_of_le ih
    · simp

/-- Whitespace tokenisation worker: `cur` is the current token, reversed. -/
def splitWsGo (cur : List Char) : List Char → List (List Char)
  | [] => if cur.isEmpty then [] else [cur.reverse]
  | c :: cs =>
    if pyIsSpace c then
      if cur.isEmpty then splitWsGo [] cs else cur.reverse :: splitWsGo [] cs
    else splitWsGo (c :: cur) cs

/-- Whitespace tokenisation: Python `str.split()` (maximal non-space runs). -/
def splitWsTokens (cs : List Char) : List (List Char) := splitWsGo [] cs

/-- Join tokens with single spaces: Python `" ".join(...)`. -/
def joinSpace : List (List Char) → List Char
  | [] => []
  | [t] => t
  | t :: ts => t ++ ' ' :: joinSpace ts

/-- Python `text.replace("**", "")`: remove occurrences left to right. -/
def removeDoubleStar : List Char → List Char
  | '*' :: '*' :: rest => removeDoubleStar rest
  | c :: rest => c :: removeDoubleStar rest
  | [] => []

/-- The substring of a list after the last occurrence of `sep`
(Python `s.split(sep)[-1]` for a single-character separator). -/
def afterLastChar (sep : Char) : List Char → List Char
  | [] => []
  | c :: cs =>
    if (c :: cs).contains sep then
      if c == sep ∧ ¬ cs.contains sep then cs else afterLastChar sep cs
    else c :: cs

/-- `LABEL_ONLY_PHRASES` from `decision_workflow.py`. -/
def LABEL_ONLY_PHRASES : List String :=
  ["objective supported", "kpi impact", "cost of inaction", "clear problem statement",
   "root cause", "affected segment", "quantified impact", "chosen option", "trade-offs",
   "trade offs", "primary metric", "leading indicators", "review cadence", "criteria",
   "revenue impact (12m)", "cost impact", "margin effect", "payback period",
   "confidence level", "risk", "impact", "probability", "mitigation",
   "we will stop or pivot if"]

/-- `LINE_PREFIXES_TO_STRIP` from `decision_workflow.py`. -/
def LINE_PREFIXES_TO_STRIP : List String :=
  ["decision requirement:", "executive requirement:", "problem framing:",
   "options evaluated:", "financial model:", "kill criterion:", "decision memo:"]

/-- The characters stripped by `.strip(" -â€¢")` in `_clean_line` (the source file
stores the bullet character in a double-encoded form, so the stripped set is the
space, the hyphen and the three code points of that encoding). -/
def bulletStripChar (c : Char) : Bool :=
  c == ' ' || c == '-' || c == 'â' || c == '€' || c == '¢'

/-- The prefix-stripping block of `_clean_line`: drop the first matching
`LINE_PREFIXES_TO_STRIP` entry (comparing against the lower-cased line) and
strip the remainder. -/
def cleanPrefixStage (n2 : List Char) : List Char :=
  match LINE_PREFIXES_TO_STRIP.find? (fun p => leadMatches p.data (n2.map pyLowerChar)) with
  | some p => stripWs (n2.drop p.data.length)
  | none => n2

/-- `_clean_line` of `decision_workflow.py`, up to the `trimmed` value. -/
def cleanStage (text : List Char) (maxLen : Nat) : List Char :=
  let n1 := (removeDoubleStar text).filter (fun c => c != '`')
  let n2 := stripBoth bulletStripChar
    (joinSpace (splitWsTokens (n1.map (fun c => if c == '\t' then ' ' else c))))
  stripWs ((cleanPrefixStage n2).take maxLen)

/-- The final discard test of `_clean_line` (on `trimmed`). -/
def cleanDropSet (trimmed : List Char) : Bool :=
  ["", "+", "|", "-", "chosen option", "trade-offs", "trade offs"].contains
    (⟨dropTail (fun c => c == ':') (trimmed.map pyLowerChar)⟩ : String)

/-- `_clean_line` of `decision_workflow.py` on character lists. -/
def cleanLineCore (text : List Char) (maxLen : Nat) : List Char :=
  let trimmed := cleanStage text maxLen
  if cleanDropSet trimmed then [] else trimmed

/-- `_clean_line` of `decision_workflow.py` (`max_len` defaults to 260). -/
def cleanLine (text : String) (maxLen : Nat := 260) : String :=
  ⟨cleanLineCore text.data maxLen⟩

/-- Python `[a-z0-9]` (also `[A-Za-z0-9]` after lowering). -/
def isLowerAlnum (c : Char) : Bool :=
  ('a' ≤ c && c ≤ 'z') || ('0' ≤ c && c ≤ '9')

/-- `re.fullmatch(r"option\s+[a-z0-9]+(?:\s*\(.+\))?", tail)` of
`_is_label_only_line`.  The dot does not match a newline. -/
def optionTailMatch (tail : List Char) : Bool :=
  Id.run do
    let mut rest := tail
    -- literal "option"
    if leadMatches ("option".data) rest then
      rest := rest.drop 6
    else
      return false
    -- \s+
    let sp := rest.takeWhile pyIsSpace
    if sp.isEmpty then return false
    rest := rest.dropWhile pyIsSpace
    -- [a-z0-9]+
    let run := rest.takeWhile isLowerAlnum
    if run.isEmpty then return false
    rest := rest.dropWhile isLowerAlnum
    -- optional: \s* \( .+ \)
    if rest.isEmpty then return true
    let rest2 := rest.dropWhile pyIsSpace
    match rest2 with
    | '(' :: more =>
      return (2 ≤ more.length && more.getLast? == some ')'
        && !(more.dropLast.contains '\n'))
    | _ => return false

/-- The label-only condition of `_is_label_only_line`, as a function of the
already cleaned line (`_clean_line(line, max_len=260)`). -/
def labelCondOfCleaned (cleaned : List Char) : Bool :=
  let normalized : List Char := stripWs (cleaned.map pyLowerChar)
  let normStr : String := ⟨normalized⟩
  if normalized.isEmpty then true
  else if LABEL_ONLY_PHRASES.contains normStr then true
  else if normStr == "combine" || normStr == "+" then true
  else if normalized.contains ':' &&
    (let tail := stripWs (afterLastChar ':' normalized)
     let tailStr : String := ⟨tail⟩
     tail.isEmpty || LABEL_ONLY_PHRASES.contains tailStr ||
       tailStr == "combine" || tailStr == "+" || optionTailMatch tail) then true
  else if normalized.getLast? == some ':' &&
    (let core := stripWs normalized.dropLast
     let coreStr : String := ⟨core⟩
     core.isEmpty || LABEL_ONLY_PHRASES.contains coreStr ||
       (splitWsTokens core).length ≤ 4) then true
  else false

/-- `_is_label_only_line` of `decision_workflow.py`. -/
def isLabelOnlyLine (line : String) : Bool :=
  labelCondOfCleaned (cleanLineCore line.data 260)

/-- Line-break characters recognised by `str.splitlines()` that the pipeline
can meet. -/
def isLineBreak (c : Char) : Bool :=
  c == '\n' || c == '\r' || c == '\x0b' || c == '\x0c'

/-- Python `str.splitlines()` worker: `cur` is the current line, reversed.
A terminal line break produces no trailing empty line. -/
def splitLinesGo (cur : List Char) : List Char → List (List Char)
  | [] => [cur.reverse]
  | '\r' :: '\n' :: rest =>
    if rest.isEmpty then [cur.reverse] else cur.reverse :: splitLinesGo [] rest
  | c :: rest =>
    if isLineBreak c then
      if rest.isEmpty then [cur.reverse] else cur.reverse :: splitLinesGo [] rest
    else splitLinesGo (c :: cur) rest

/-- Python `str.splitlines()`. -/
def splitLinesPy (cs : List Char) : List (List Char) :=
  if cs.isEmpty then [] else splitLinesGo [] cs

mutual

/-- `re.split(r"(?<=[.!?])\s+", text)` worker: `cur` is the current piece,
reversed.  A separator is sentence punctuation immediately followed by
whitespace; the whitespace run is consumed by `sentSplitSkip`. -/
def sentSplitGo (cur : List Char) : List Char → List (List Char)
  | [] => [cur.reverse]
  | c :: cs =>
    if (c == '.' || c == '!' || c == '?') && cs.head?.any pyIsSpace then
      (cur.reverse ++ [c]) :: sentSplitSkip cs
    else sentSplitGo (c :: cur) cs

/-- Consume the whitespace run of a separator, then resume. -/
def sentSplitSkip : List Char → List (List Char)
  | [] => [[]]
  | d :: ds =>
    if pyIsSpace d then sentSplitSkip ds
    else
      if (d == '.' || d == '!' || d == '?') && ds.head?.any pyIsSpace then
        [d] :: sentSplitSkip ds
      else sentSplitGo [d] ds

end

def sentSplit (s : String) : List String := (sentSplitGo [] s.data).map List.asString

/-- `_dedupe_keep_order` of `decision_workflow.py`.  `seen` carries the
lower-cased keys of already emitted lines, `count` the number emitted. -/
def dedupeKeepOrderGo (limit : Nat) (seen : List String) (count : Nat) :
    List String → List String
  | [] => []
  | l :: rest =>
    let cleaned := cleanLine l
    if cleaned == "" then dedupeKeepOrderGo limit seen count rest
    else
      let key := pyLower cleaned
      if seen.contains key then dedupeKeepOrderGo limit seen count rest
      else cleaned ::
        (if limit ≤ count + 1 then []
         else dedupeKeepOrderGo limit (key :: seen) (count + 1) rest)

def dedupeKeepOrder (lines : List String) (limit : Nat := 8) : List String :=
  dedupeKeepOrderGo limit [] 0 lines

/-- Stop-word alternation of `_normalize_similarity_text`. -/
def SIMILARITY_STOPWORDS : List String :=
  ["a", "an", "the", "to", "for", "of", "and", "or", "with", "all", "ensure",
   "perform", "conduct", "develop", "comprehensive", "thorough", "potential",
   "required"]

/-- Worker for `alnumTokens`: `cur` is the current run, reversed. -/
def alnumTokensGo (cur : List Char) : List Char → List (List Char)
  | [] => if cur.isEmpty then [] else [cur.reverse]
  | c :: cs =>
    if isLowerAlnum c then alnumTokensGo (c :: cur) cs
    else if cur.isEmpty then alnumTokensGo [] cs
    else cur.reverse :: alnumTokensGo [] cs

/-- Maximal `[a-z0-9]` runs of a list in which every other character acts as a
separator. -/
def alnumTokens (cs : List Char) : List (List Char) := alnumTokensGo [] cs

/-- `_normalize_similarity_text` of `decision_workflow.py`: lower-case, replace
`[^a-z0-9\s]` by spaces, remove stop-words delimited by `\b` (after the first
substitution a `\b`-delimited word is exactly a maximal `[a-z0-9]` run), then
collapse `\s+` and strip.  The net effect is: keep the non-stop-word alnum
tokens, joined by single spaces. -/
def normalizeSimilarityText (text : String) : String :=
  let tokens := alnumTokens (text.data.map pyLowerChar)
  String.intercalate " "
    ((tokens.filter (fun t => !SIMILARITY_STOPWORDS.contains t.asString)).map List.asString)

/-- Length of the longest common prefix. -/
def commonPrefixLen : List Char → List Char → Nat
  | c :: cs, d :: ds => if c == d then commonPrefixLen cs ds + 1 else 0
  | _, _ => 0

/-- `difflib.SequenceMatcher.find_longest_match` for sequences without junk
elements: the longest common contiguous block, earliest in `a`, then earliest
in `b`. -/
def longestCommon (a b : List Char) : Nat × Nat × Nat :=
  (List.range a.length).foldl (fun best i =>
    (List.range b.length).foldl (fun best j =>
      let k := commonPrefixLen (a.drop i) (b.drop j)
      if best.2.2 < k then (i, j, k) else best) best) (0, 0, 0)

/-- Total size of `difflib.SequenceMatcher.get_matching_blocks`: recursively
take the longest block and recurse on both sides.  `fuel` bounds the recursion
(window sizes strictly decrease, so `a.length + b.length` is enough). -/
def matchTotal : Nat → List Char → List Char → Nat
  | 0, _, _ => 0
  | fuel + 1, a, b =>
    let (i, j, k) := longestCommon a b
    if k == 0 then 0
    else k + matchTotal fuel (a.take i) (b.take j)
           + matchTotal fuel (a.drop (i + k)) (b.drop (j + k))

/-- `difflib.SequenceMatcher(None, a, b).ratio()` as a rational
(`2.0 * M / T`, and `1.0` when both strings are empty). -/
def ratioQ (a b : String) : ℚ :=
  let la := a.data.length
  let lb := b.data.length
  if la + lb == 0 then 1
  else (2 * (matchTotal (la + lb) a.data b.data) : ℚ) / (la + lb : ℚ)

/-- The comparison key used by `_dedupe_semantic`: the normalized text, or the
lower-cased cleaned line when normalization erases everything. -/
def semanticKey (cleaned : String) : String :=
  let normalized := normalizeSimilarityText cleaned
  if normalized == "" then pyLower cleaned else normalized

/-- One duplicate test of `_dedupe_semantic`: equal normalized forms, or
similarity ratio at or above the threshold. -/
def semanticDup (similarity : ℚ) (normalized prior : String) : Bool :=
  normalized == prior || decide (similarity ≤ ratioQ normalized prior)

/-- `_dedupe_semantic` of `decision_workflow.py`. -/
def dedupeSemanticGo (limit : Nat) (similarity : ℚ) (normOut : List String)
    (count : Nat) : List String → List String
  | [] => []
  | l :: rest =>
    let cleaned := cleanLine l
    if cleaned == "" then dedupeSemanticGo limit similarity normOut count rest
    else
      let normalized := semanticKey cleaned
      if normOut.any (fun prior => semanticDup similarity normalized prior) then
        dedupeSemanticGo limit similarity normOut count rest
      else cleaned ::
        (if limit ≤ count + 1 then []
         else dedupeSemanticGo limit similarity (normOut ++ [normalized]) (count + 1) rest)

def dedupeSemantic (lines : List String) (limit : Nat := 8)
    (similarity : ℚ := 86/100) : List String :=
  dedupeSemanticGo limit similarity [] 0 lines

/-- `_requirement_topic_key` of `decision_workflow.py`. -/
def requirementTopicKey (text : String) : String :=
  let lowered := pyLower text
  if strContains lowered ("downside model") || strContains lowered ("downside modeling")
  then "downside_modeling"
  else if strContains lowered ("compliance review") then "compliance_review"
  else if strContains lowered ("risk matrix") then "risk_matrix"
  else ""

/-! ### `app/workflow/gates.py` -/

/-- A Notion property value (the typed dicts stored under each property name).
`checkbox = some b` models a `"checkbox"` key with value `b`; `none` models an
absent key.  `number = none` covers both an absent `"number"` key and a null
value.  `select`/`status` hold the nested `name` string when present.  `rest`
carries any remaining keys so that frame reasoning can talk about them. -/
structure PageProp where
  type : String := ""
  title : String := ""
  rich_text : String := ""
  checkbox : Option Bool := none
  number : Option ℚ := none
  select : Option String := none
  status : Option String := none
  url : Option String := none
  email : Option String := none
  rest : List (String × String) := []
deriving DecidableEq, Repr

/-- A property bag (`page_properties`): name → property dict. -/
def PropsMap : Type := String → Option PageProp

def REQUIRED_BOOLEAN_GATES : List String :=
  ["Strategic Alignment Brief", "Problem Quantified", "≥3 Options Evaluated",
   "Success Metrics Defined", "Leading Indicators Defined", "Kill Criteria Defined"]

/-- `_checkbox_true` of `gates.py` (`not prop` and a missing/None value both
give `False`). -/
def checkboxTrue (prop : Option PageProp) : Bool :=
  match prop with
  | none => false
  | some p => p.checkbox.getD false

/-- `_number_present` of `gates.py`. -/
def numberPresent (prop : Option PageProp) : Bool :=
  match prop with
  | none => false
  | some p => p.number.isSome

/-- `_select_present` of `gates.py`: the select dict exists and its name is a
non-empty string. -/
def selectPresent (prop : Option PageProp) : Bool :=
  match prop with
  | none => false
  | some p =>
    match p.select with
    | none => false
    | some s => !(s == "")

/-- `bool(inferred_checks and inferred_checks.get(gate))`: a `None` map, an
empty map, a missing key and a `False` value all give `False`. -/
def inferredTrue (inferred : Option (List (String × Bool))) (gate : String) : Bool :=
  match inferred with
  | none => false
  | some m => (m.lookup gate).getD false

/-- `evaluate_required_gates` of `gates.py`: missing scalar fields first
(Baseline, Target, Time Horizon), then the unsatisfied boolean gates in their
declared order. -/
def evaluate_required_gates (props : PropsMap)
    (inferred : Option (List (String × Bool))) : List String :=
  (if numberPresent (props ("Baseline")) then [] else ["Baseline"])
  ++ (if numberPresent (props ("Target")) then [] else ["Target"])
  ++ (if selectPresent (props ("Time Horizon")) then [] else ["Time Horizon"])
  ++ REQUIRED_BOOLEAN_GATES.filter
      (fun gate => !(checkboxTrue (props gate) || inferredTrue inferred gate))

/-- Whether one required item of `evaluate_required_gates` is satisfied: the
specification's reading of the three scalar checks and six boolean gates. -/
def gateSatisfied (props : PropsMap) (inferred : Option (List (String × Bool)))
    (gate : String) : Bool :=
  if gate == "Baseline" || gate == "Target" then numberPresent (props gate)
  else if gate == "Time Horizon" then selectPresent (props gate)
  else checkboxTrue (props gate) || inferredTrue inferred gate

/-- Python `\w` on the ASCII range. -/
def isWordChar (c : Char) : Bool := c.isAlphanum || c == '_'

/-- `\b` before a word character: start of text or a preceding non-word
character. -/
def boundaryBefore (prev : Option Char) : Bool :=
  match prev with
  | none => true
  | some c => !isWordChar c

/-- One attempt of `re` matching `\boption\s+[a-z0-9]+\b` at the head of `cs`
(over already lower-cased text).  Returns the matched characters and the
remaining text. -/
def optionMatchAt (prev : Option Char) (cs : List Char) : Option (List Char × List Char) :=
  if boundaryBefore prev && leadMatches ("option".data) cs then
    let r1 := cs.drop 6
    let sp := r1.takeWhile pyIsSpace
    if sp.isEmpty then none
    else
      let r2 := r1.dropWhile pyIsSpace
      let run := r2.takeWhile isLowerAlnum
      if run.isEmpty then none
      else
        let r3 := r2.dropWhile isLowerAlnum
        -- final \b: the run is maximal in [a-z0-9]; it must not abut a word char
        match r3.head? with
        | some c => if isWordChar c then none else some (("option".data) ++ sp ++ run, r3)
        | none => some (("option".data) ++ sp ++ run, r3)
  else none

/-- `re.findall(r"\boption\s+[a-z0-9]+\b", text)`: left-to-right,
non-overlapping. -/
def scanOptions : Nat → Option Char → List Char → List (List Char)
  | 0, _, _ => []
  | _ + 1, _, [] => []
  | fuel + 1, prev, c :: cs =>
    match optionMatchAt prev (c :: cs) with
    | some (m, rest) => m :: scanOptions fuel m.getLast? rest
    | none => scanOptions fuel (some c) cs

/-- The character class `[\d,\.%]`. -/
def isNumCls (c : Char) : Bool := c.isDigit || c == ',' || c == '.' || c == '%'

/-- Backtracking search for `[\d,\.%]*\b` after the leading digit: the largest
`k` such that the boundary holds after `d :: run.take k`. -/
def numericBackFind (d : Char) (run rest : List Char) : Option Nat :=
  let boundaryAfter : Nat → Bool := fun k =>
    let last := if k == 0 then d else (run.take k).getLast?.getD d
    match (rest.drop k).head? with
    | none => isWordChar last
    | some c => isWordChar last != isWordChar c
  (List.range (run.length + 1)).reverse.find? boundaryAfter

/-- One attempt of matching `\b\d[\d,\.%]*\b` at the head of `cs`. -/
def numericMatchAt (prev : Option Char) (cs : List Char) : Option (List Char × List Char) :=
  match cs with
  | [] => none
  | d :: rest =>
    if boundaryBefore prev && d.isDigit then
      let run := rest.takeWhile isNumCls
      match numericBackFind d run rest with
      | some k => some (d :: run.take k, rest.drop k)
      | none => none
    else none

/-- `re.findall(r"\b\d[\d,\.%]*\b", text)`. -/
def scanNumerics : Nat → Option Char → List Char → List (List Char)
  | 0, _, _ => []
  | _ + 1, _, [] => []
  | fuel + 1, prev, c :: cs =>
    match numericMatchAt prev (c :: cs) with
    | some (m, rest) => m :: scanNumerics fuel m.getLast? rest
    | none => scanNumerics fuel (some c) cs

/-- `has_any` of `infer_governance_checks_from_text` (over lower-cased text). -/
def hasAny (text : String) (phrases : List String) : Bool :=
  phrases.any (fun p => strContains text p)

/-- `explicitly_no` of `infer_governance_checks_from_text`. -/
def explicitlyNo (text : String) (gateName : String) : Bool :=
  strContains text (pyLower gateName ++ ": no")

/-- `infer_governance_checks_from_text` of `gates.py`. -/
def inferGovernanceChecks (bodyText : String) : List (String × Bool) :=
  let text := pyLower bodyText
  let optionMatches := scanOptions (text.data.length + 1) none text.data
  let numericMatches := scanNumerics (text.data.length + 1) none text.data
  [("Strategic Alignment Brief",
      !explicitlyNo text ("Strategic Alignment Brief") &&
      hasAny text ["strategic context", "strategic alignment", "objective supported"]),
   ("Problem Quantified",
      !explicitlyNo text ("Problem Quantified") &&
      hasAny text ["problem framing", "quantified impact", "problem statement"] &&
      decide (3 ≤ numericMatches.length)),
   ("≥3 Options Evaluated",
      !explicitlyNo text ("≥3 Options Evaluated") &&
      hasAny text ["options evaluated", "chosen option"] &&
      decide (3 ≤ optionMatches.eraseDups.length)),
   ("Success Metrics Defined",
      !explicitlyNo text ("Success Metrics Defined") &&
      hasAny text ["success metrics", "primary metric", "kpi impact"]),
   ("Leading Indicators Defined",
      !explicitlyNo text ("Leading Indicators Defined") &&
      hasAny text ["leading indicators"]),
   ("Kill Criteria Defined",
      !explicitlyNo text ("Kill Criteria Defined") &&
      hasAny text ["kill criteria", "we will stop or pivot"]),
   ("Option Trade-offs Explicit",
      !explicitlyNo text ("Option Trade-offs Explicit") &&
      hasAny text ["trade-offs", "trade offs"]),
   ("Risk Matrix Completed",
      !explicitlyNo text ("Risk Matrix Completed") &&
      hasAny text ["risk matrix"] && hasAny text ["mitigation", "probability", "impact"]),
   ("Financial Model Included",
      !explicitlyNo text ("Financial Model Included") &&
      hasAny text ["financial model", "payback period", "revenue impact", "cost impact"]),
   ("Downside Modeled",
      !explicitlyNo text ("Downside Modeled") &&
      hasAny text ["downside", "risk-adjusted", "sensitivity"]),
   ("Compliance Reviewed",
      !explicitlyNo text ("Compliance Reviewed") &&
      hasAny text ["compliance review", "compliance reviewed", "legal review", "regulatory review"]),
   ("Decision Memo Written",
      !explicitlyNo text ("Decision Memo Written") &&
      hasAny text ["executive summary", "final decision"]),
   ("Root Cause Done",
      !explicitlyNo text ("Root Cause Done") && hasAny text ["root cause"]),
   ("Assumptions Logged",
      !explicitlyNo text ("Assumptions Logged") &&
      hasAny text ["assumptions", "confidence level"])]

/-- The names of the fourteen governance checks. -/
def GOVERNANCE_CHECK_NAMES : List String :=
  ["Strategic Alignment Brief", "Problem Quantified", "≥3 Options Evaluated",
   "Success Metrics Defined", "Leading Indicators Defined", "Kill Criteria Defined",
   "Option Trade-offs Explicit", "Risk Matrix Completed", "Financial Model Included",
   "Downside Modeled", "Compliance Reviewed", "Decision Memo Written",
   "Root Cause Done", "Assumptions Logged"]

/-! ### `app/schemas/review_output.py` and the gate decision
(`BoardroomDecisionWorkflow._decide_gate`) -/

structure ReviewRisk where
  type : String := ""
  severity : ℤ := 1
  evidence : String := ""
deriving DecidableEq, Repr

structure ReviewOutput where
  agent : String := ""
  thesis : String := ""
  score : ℤ := 1
  confidence : ℚ := 0
  blocked : Bool := false
  blockers : List String := []
  risks : List ReviewRisk := []
  required_changes : List String := []
  approval_conditions : List String := []
  apga_impact_view : String := ""
  governance_checks_met : List (String × Bool) := []
deriving DecidableEq, Repr

inductive GateCategory where
  | approved
  | revision_required
  | blocked
deriving DecidableEq, Repr

/-- `_decide_gate` of `decision_workflow.py`: the routing decision (the status
write-backs are external effects on the document store and are not part of the
returned category). -/
def decideGate (reviews : List (String × ReviewOutput)) (dqs : ℚ) : GateCategory :=
  if reviews.any (fun r => r.2.blocked) then GateCategory.blocked
  else if dqs < 7 then GateCategory.revision_required
  else GateCategory.approved

/-- `_calculate_dqs_node` of `decision_workflow.py`: the weighted score. -/
def calculateDqs (ceo cfo cto compliance : ℤ) : ℚ :=
  (ceo : ℚ) * (30/100) + (cfo : ℚ) * (25/100) + (cto : ℚ) * (25/100)
    + (compliance : ℚ) * (20/100)

/-! ### The checkbox auto-correction pass of
`BoardroomDecisionWorkflow._build_decision_node` -/

/-- Update one entry of a property bag. -/
def setProp (props : PropsMap) (name : String) (p : PageProp) : PropsMap :=
  fun n => if n == name then some p else props n

/-- The loop of `_build_decision_node` that collects `checkbox_updates`: for
every inferred check that is met, if the page property is a dict with a
`"checkbox"` key whose value is falsy, record `{gate: {"checkbox": True}}` and
set the in-memory property to `True`.  Returns the recorded updates (in loop
order) and the mutated property bag. -/
def checkboxStep (acc : List (String × Bool) × PropsMap) (entry : String × Bool) :
    List (String × Bool) × PropsMap :=
  if !entry.2 then acc
  else
    match acc.2 entry.1 with
    | some p =>
      if p.checkbox.isSome && !(p.checkbox.getD false) then
        (acc.1 ++ [(entry.1, true)],
          setProp acc.2 entry.1 { p with checkbox := some true })
      else acc
    | none => acc

def checkboxPass (inferred : List (String × Bool)) (props : PropsMap) :
    List (String × Bool) × PropsMap :=
  inferred.foldl checkboxStep ([], props)

/-! ### `app/agents/base.py`, `app/agents/cfo.py`, `app/agents/compliance.py`

The adapters parse the completion text with `json.loads`, falling back to the
largest brace-delimited substring.  `Json` is the parsed value; the parser
below implements the strict JSON grammar (`json.loads` raising is modelled by
`none`). -/

inductive Json where
  | null
  | bool (b : Bool)
  | num (q : ℚ)
  | str (s : String)
  | arr (items : List Json)
  | obj (entries : List (String × Json))
deriving BEq, Repr

/-- JSON whitespace. -/
def jsonWs (c : Char) : Bool := c == ' ' || c == '\t' || c == '\n' || c == '\r'

def skipWsJ (cs : List Char) : List Char := cs.dropWhile jsonWs

def hexVal (c : Char) : Option Nat :=
  if '0' ≤ c ∧ c ≤ '9' then some (c.toNat - '0'.toNat)
  else if 'a' ≤ c ∧ c ≤ 'f' then some (c.toNat - 'a'.toNat + 10)
  else if 'A' ≤ c ∧ c ≤ 'F' then some (c.toNat - 'A'.toNat + 10)
  else none

/-- Body of a JSON string literal (after the opening quote). -/
def parseJStr : List Char → Option (List Char × List Char)
  | [] => none
  | '"' :: rest => some ([], rest)
  | '\\' :: e :: rest =>
    (match e with
     | '"' => (parseJStr rest).map (fun (s, r) => ('"' :: s, r))
     | '\\' => (parseJStr rest).map (fun (s, r) => ('\\' :: s, r))
     | '/' => (parseJStr rest).map (fun (s, r) => ('/' :: s, r))
     | 'b' => (parseJStr rest).map (fun (s, r) => ('\x08' :: s, r))
     | 'f' => (parseJStr rest).map (fun (s, r) => ('\x0c' :: s, r))
     | 'n' => (parseJStr rest).map (fun (s, r) => ('\n' :: s, r))
     | 'r' => (parseJStr rest).map (fun (s, r) => ('\r' :: s, r))
     | 't' => (parseJStr rest).map (fun (s, r) => ('\t' :: s, r))
     | 'u' =>
       match rest with
       | h1 :: h2 :: h3 :: h4 :: rest2 =>
         match hexVal h1, hexVal h2, hexVal h3, hexVal h4 with
         | some a, some b, some c, some d =>
           let n := ((a * 16 + b) * 16 + c) * 16 + d
           if 0xd800 ≤ n ∧ n < 0xe000 then none  -- lone surrogates not modelled
           else (parseJStr rest2).map (fun (s, r) => (Char.ofNat n :: s, r))
         | _, _, _, _ => none
       | _ => none
     | _ => none)
  | c :: rest =>
    if c.toNat < 0x20 then none
    else (parseJStr rest).map (fun (s, r) => (c :: s, r))

def digitsVal (ds : List Char) : Nat := ds.foldl (fun n c => n * 10 + (c.toNat - '0'.toNat)) 0

/-- JSON number grammar: `-? (0 | [1-9][0-9]*) (. [0-9]+)? ([eE][+-]?[0-9]+)?`. -/
def parseJNum (cs : List Char) : Option (ℚ × List Char) :=
  let (negated, cs1) :=
    match cs with
    | '-' :: r => (true, r)
    | _ => (false, cs)
  let intDigits := cs1.takeWhile Char.isDigit
  let cs2 := cs1.dropWhile Char.isDigit
  if intDigits.isEmpty then none
  else if 2 ≤ intDigits.length ∧ intDigits.head? == some '0' then none
  else
    let (fracDigits, cs3) :=
      match cs2 with
      | '.' :: r =>
        (r.takeWhile Char.isDigit, r.dropWhile Char.isDigit)
      | _ => ([], cs2)
    if cs2.head? == some '.' ∧ fracDigits.isEmpty then none
    else
      let hasExp := cs3.head? == some 'e' || cs3.head? == some 'E'
      let (expNeg, expDigits, cs5) :=
        if hasExp then
          let r := cs3.drop 1
          let (en, r2) :=
            match r with
            | '+' :: rr => (false, rr)
            | '-' :: rr => (true, rr)
            | _ => (false, r)
          (en, r2.takeWhile Char.isDigit, r2.dropWhile Char.isDigit)
        else (false, [], cs3)
      if hasExp ∧ expDigits.isEmpty then none
      else
        let mantissa : ℤ := (digitsVal intDigits * 10 ^ fracDigits.length + digitsVal fracDigits : ℕ)
        let mantissa := if negated then -mantissa else mantissa
        let e : ℤ := (if expNeg then -(digitsVal expDigits : ℤ) else (digitsVal expDigits : ℤ))
          - fracDigits.length
        let q : ℚ :=
          if 0 ≤ e then (mantissa : ℚ) * (10 : ℚ) ^ e.toNat
          else (mantissa : ℚ) / (10 : ℚ) ^ (-e).toNat
        some (q, cs5)

mutual

/-- One JSON value at the head of the input (leading whitespace allowed). -/
def parseJVal : Nat → List Char → Option (Json × List Char)
  | 0, _ => none
  | fuel + 1, cs =>
    match skipWsJ cs with
    | '{' :: rest => parseJObj fuel rest true
    | '[' :: rest => parseJArr fuel rest true
    | '"' :: rest => (parseJStr rest).map (fun (s, r) => (Json.str ⟨s⟩, r))
    | 't' :: 'r' :: 'u' :: 'e' :: rest => some (Json.bool true, rest)
    | 'f' :: 'a' :: 'l' :: 's' :: 'e' :: rest => some (Json.bool false, rest)
    | 'n' :: 'u' :: 'l' :: 'l' :: rest => some (Json.null, rest)
    | rest => (parseJNum rest).map (fun (q, r) => (Json.num q, r))

/-- Object members after `{` (`first` marks the position before any member). -/
def parseJObj : Nat → List Char → Bool → Option (Json × List Char)
  | 0, _, _ => none
  | fuel + 1, cs, first =>
    match skipWsJ cs with
    | '}' :: rest => if first then some (Json.obj [], rest) else none
    | '"' :: rest =>
      match parseJStr rest with
      | none => none
      | some (key, r1) =>
        match skipWsJ r1 with
        | ':' :: r2 =>
          match parseJVal fuel r2 with
          | none => none
          | some (v, r3) =>
            match skipWsJ r3 with
            | ',' :: r4 =>
              (parseJObj fuel r4 false).map
                (fun (j, r) =>
                  match j with
                  | Json.obj kvs => (Json.obj ((⟨key⟩, v) :: kvs), r)
                  | other => (other, r))
            | '}' :: r4 => some (Json.obj [(⟨key⟩, v)], r4)
            | _ => none
        | _ => none
    | _ => none

/-- Array items after `[`. -/
def parseJArr : Nat → List Char → Bool → Option (Json × List Char)
  | 0, _, _ => none
  | fuel + 1, cs, first =>
    match skipWsJ cs with
    | ']' :: rest => if first then some (Json.arr [], rest) else none
    | _ =>
      match parseJVal fuel cs with
      | none => none
      | some (v, r1) =>
        match skipWsJ r1 with
        | ',' :: r2 =>
          (parseJArr fuel r2 false).map
            (fun (j, r) =>
              match j with
              | Json.arr items => (Json.arr (v :: items), r)
              | other => (other, r))
        | ']' :: r2 => some (Json.arr [v], r2)
        | _ => none

end

/-- `json.loads`: one value, then only trailing whitespace. -/
def jsonLoads (s : String) : Option Json :=
  match parseJVal (s.data.length + 1) s.data with
  | some (v, rest) => if (skipWsJ rest).isEmpty then some v else none
  | none => none

/-- Python `str.find(char)`: first index, or none. -/
def findIdx (c : Char) (cs : List Char) : Option Nat :=
  (List.range cs.length).find? (fun i => cs.get? i == some c)

/-- Python `str.rfind(char)`: last index, or none. -/
def rfindIdx (c : Char) (cs : List Char) : Option Nat :=
  ((List.range cs.length).reverse).find? (fun i => cs.get? i == some c)

/-- `content[start : end + 1]`. -/
def sliceIncl (cs : List Char) (start stop : Nat) : List Char :=
  (cs.drop start).take (stop + 1 - start)

/-- `BaseAgent._placeholder_output` of `app/agents/base.py`, as the JSON-like
dict the adapters return. -/
def placeholderJson (name reason : String) : Json :=
  Json.obj
    [("agent", Json.str name),
     ("thesis", Json.str (name ++ " review unavailable due to output parsing failure.")),
     ("score", Json.num 1),
     ("confidence", Json.num 0),
     ("blocked", Json.bool true),
     ("blockers", Json.arr [Json.str reason]),
     ("risks", Json.arr [Json.obj
        [("type", Json.str ("llm_output_error")),
         ("severity", Json.num 8),
         ("evidence", Json.str reason)]]),
     ("required_changes", Json.arr [Json.str ("Regenerate review with strict valid JSON output.")]),
     ("approval_conditions", Json.arr []),
     ("apga_impact_view", Json.str ("Unknown due to invalid model output.")),
     ("governance_checks_met", Json.obj [])]

/-- `parsed["agent"] = name` on a dict: replace in place or append. -/
def jsonSetKey (k : String) (v : Json) : Json → Json
  | Json.obj kvs =>
    if kvs.any (fun kv => kv.1 == k) then
      Json.obj (kvs.map (fun kv => if kv.1 == k then (kv.1, v) else kv))
    else Json.obj (kvs ++ [(k, v)])
  | j => j

/-- `CFOAgent.evaluate` of `app/agents/cfo.py`, given the completion content
the provider returned.  A non-dict JSON payload makes the `parsed["agent"]`
assignment raise, which the outer handler turns into the LLM-call-failed
placeholder (the exception text is abstracted). -/
def cfoEvaluate (content : String) : Json :=
  if content == "" then placeholderJson ("CFO") ("CFO model returned empty content.")
  else
    match jsonLoads content with
    | some (Json.obj kvs) => jsonSetKey ("agent") (Json.str ("CFO")) (Json.obj kvs)
    | some _ => placeholderJson ("CFO") ("CFO LLM call failed: non-object JSON payload.")
    | none =>
      match findIdx '{' content.data, rfindIdx '}' content.data with
      | some start, some stop =>
        if start < stop then
          match jsonLoads ⟨sliceIncl content.data start stop⟩ with
          | some (Json.obj kvs) => jsonSetKey ("agent") (Json.str ("CFO")) (Json.obj kvs)
          | some _ => placeholderJson ("CFO") ("CFO LLM call failed: non-object JSON payload.")
          | none => placeholderJson ("CFO") ("CFO JSON parsing failed after extraction attempt.")
        else placeholderJson ("CFO") ("CFO output had no parseable JSON object.")
      | _, _ => placeholderJson ("CFO") ("CFO output had no parseable JSON object.")

/-- `ComplianceAgent._parse_json`. -/
def complianceParseJson (content : String) : Option Json :=
  if content == "" then none
  else
    match jsonLoads content with
    | some v => some v
    | none =>
      match findIdx '{' content.data, rfindIdx '}' content.data with
      | some start, some stop =>
        if start < stop then jsonLoads ⟨sliceIncl content.data start stop⟩ else none
      | _, _ => none

/-- Python `s[-240:]`. -/
def lastChars (n : Nat) (s : String) : String :=
  ⟨s.data.drop (s.data.length - n)⟩

/-- `ComplianceAgent.evaluate`: the provider is a stream of
`(content, finish_reason)` responses; the result is paired with the
`max_tokens` budget of each call actually made (`max_tokens_plan = [1200, 2400]`). -/
def complianceEvaluate (provider : Nat → String × String) : Json × List Nat :=
  let (c1, _) := provider 0
  match complianceParseJson c1 with
  | some (Json.obj kvs) =>
    (jsonSetKey ("agent") (Json.str ("Compliance")) (Json.obj kvs), [1200])
  | some _ =>
    (placeholderJson ("Compliance") ("Compliance LLM call failed: non-object JSON payload."),
     [1200])
  | none =>
    let (c2, fr2) := provider 1
    match complianceParseJson c2 with
    | some (Json.obj kvs) =>
      (jsonSetKey ("agent") (Json.str ("Compliance")) (Json.obj kvs), [1200, 2400])
    | some _ =>
      (placeholderJson ("Compliance") ("Compliance LLM call failed: non-object JSON payload."),
       [1200, 2400])
    | none =>
      let tail := if c2 == "" then "<empty>" else lastChars 240 c2
      (placeholderJson ("Compliance")
        ("Compliance JSON parsing failed after retry (finish_reason=" ++ fr2 ++
          ", tail=" ++ tail ++ ")."),
       [1200, 2400])

/-! ### The text synthesis engine (`_build_prd_output` and helpers) -/

def DECISION_SOURCE_HEADINGS : List String :=
  ["Executive Summary", "1. Strategic Context", "2. Problem Framing",
   "3. Options Evaluated", "4. Financial Model", "5. Risk Matrix",
   "6. Final Decision", "7. Kill Criteria", "8. Monitoring Plan"]

def PRD_SECTION_DEFAULTS : List (String × String) :=
  [("Goals", "Define the north star: outcomes, why now, tie to OKRs."),
   ("Background", "Context: prior decisions, customer insights, incidents, gaps."),
   ("Research", "Market scans, competitive benchmarks, and evidence."),
   ("User Stories", "Use: \"As a [user], I want [action], so I can [benefit].\""),
   ("Requirements", "Functional, non-functional, and constraints. Make them testable."),
   ("Telemetry", "Events, properties, funnels, KPIs, dashboards, and review cadence."),
   ("UX/UI Design", "Capture UX flows, accessibility, and responsive design notes."),
   ("Experiment", "Hypothesis, KPIs, success/fail criteria, and sampling plan."),
   ("Q&A", "Open questions, blockers, and dependencies."),
   ("Notes", "Assumptions, pending decisions, and implementation notes.")]

/-- Index of the first occurrence of `needle` in `hay` (Python `str.find`). -/
def findSubPos (needle : List Char) : List Char → Option Nat
  | [] => if leadMatches needle [] then some 0 else none
  | c :: cs =>
    if leadMatches needle (c :: cs) then some 0
    else (findSubPos needle cs).map (· + 1)

/-- `_property_value` of `decision_workflow.py`.  Number values are rendered
as Python renders them for integral floats (`str(int(v))`); the decimal
rendering of non-integral floats is abstracted as `num/den`. -/
def formatNumber (q : ℚ) : String :=
  if q.den == 1 then toString q.num else toString q.num ++ "/" ++ toString q.den

def propertyValue (props : PropsMap) (name : String) : String :=
  match props name with
  | none => ""
  | some p =>
    if p.type == "title" then p.title
    else if p.type == "rich_text" then p.rich_text
    else if p.type == "number" then
      match p.number with
      | none => ""
      | some q => formatNumber q
    else if p.type == "select" then p.select.getD ""
    else if p.type == "status" then p.status.getD ""
    else if p.type == "checkbox" then
      if p.checkbox.getD false then "Yes" else "No"
    else if p.type == "url" then p.url.getD ""
    else if p.type == "email" then p.email.getD ""
    else ""

/-- One element of `DecisionSnapshot.section_excerpt`
(`{"type": "text", "text": {"content": ...}}`). -/
structure ExcerptItem where
  content : String := ""
deriving DecidableEq, Repr

/-- `app/schemas/decision_snapshot.py` (the `computed` sub-map is split into
its two fields). -/
structure DecisionSnapshot where
  page_id : String := ""
  captured_at : String := ""
  properties : PropsMap := fun _ => none
  section_excerpt : List ExcerptItem := []
  inferred_governance_checks : List (String × Bool) := []
  autochecked_governance_fields : List String := []

/-- `_snapshot_body_text` of `decision_workflow.py`. -/
def snapshotBodyText (snapshot : Option DecisionSnapshot) : String :=
  match snapshot with
  | none => ""
  | some s =>
    match s.section_excerpt with
    | [] => ""
    | e :: _ => e.content

/-- The Chairperson synthesis payload (§ `_synthesize_node`). -/
structure SynthesisMap where
  executive_summary : String := ""
  final_recommendation : Option String := none
  conflicts : List String := []
  blockers : List String := []
  required_revisions : List String := []
deriving DecidableEq, Repr

/-- `app/schemas/prd_output.py`. -/
structure PRDOutput where
  title : String := ""
  scope : List String := []
  milestones : List String := []
  telemetry : List String := []
  risks : List String := []
  sections : List (String × List String) := []
deriving DecidableEq, Repr

/-- The slice of `GraphState` that `_build_prd_output` reads. -/
structure GraphStateLite where
  decision_snapshot : Option DecisionSnapshot := none
  reviews : List (String × ReviewOutput) := []
  synthesis : Option SynthesisMap := none
  decision_name : String := ""

/-- `_extract_decision_section` of `decision_workflow.py`. -/
def extractDecisionSection (body heading : String) : String :=
  if body == "" then ""
  else
    let lowered := (pyLower body).data
    let marker := (pyLower heading).data
    match findSubPos marker lowered with
    | none => ""
    | some markerPos =>
      let contentStart :=
        match findSubPos ['\n'] (body.data.drop markerPos) with
        | none => markerPos + heading.data.length
        | some p => markerPos + p + 1
      let contentEnd := DECISION_SOURCE_HEADINGS.foldl
        (fun acc nh =>
          if (pyLower nh).data == marker then acc
          else
            match findSubPos (pyLower nh).data (lowered.drop contentStart) with
            | none => acc
            | some p => if contentStart + p < acc then contentStart + p else acc)
        body.data.length
      ⟨stripWs ((body.data.drop contentStart).take (contentEnd - contentStart))⟩

/-- `_section_lines` of `decision_workflow.py`. -/
def sectionLines (text : String) (maxLines : Nat := 6) : List String :=
  if text == "" then []
  else
    let lines0 := (splitLinesPy text.data).filterMap
      (fun l => let c := cleanLine ⟨l⟩; if c == "" then none else some c)
    let lines1 :=
      if lines0.length ≤ 1 ∧ lines0 ≠ [] then
        (sentSplit (lines0.headD "")).filterMap
          (fun p => let c := cleanLine p; if c == "" then none else some c)
      else lines0
    dedupeKeepOrder (lines1.filter (fun l => !isLabelOnlyLine l)) maxLines

/-- `_reviews_required_changes` of `decision_workflow.py`. -/
def reviewsRequiredChanges (reviews : List (String × ReviewOutput))
    (limit : Nat := 6) : List String :=
  let step := fun (acc : List String × List String) (change : String) =>
    let cleaned := cleanLine change
    if cleaned == "" then acc
    else
      let topic := requirementTopicKey cleaned
      if topic ≠ "" ∧ acc.2.contains topic then acc
      else (acc.1 ++ [cleaned], if topic ≠ "" then acc.2 ++ [topic] else acc.2)
  let folded := reviews.foldl (fun acc r => r.2.required_changes.foldl step acc) ([], [])
  dedupeSemantic folded.1 limit

/-- `_reviews_risk_evidence` of `decision_workflow.py`. -/
def reviewsRiskEvidence (reviews : List (String × ReviewOutput))
    (limit : Nat := 6) : List String :=
  dedupeKeepOrder
    (reviews.foldl
      (fun acc r => acc ++ r.2.risks.map (fun k => k.type ++ ": " ++ k.evidence)) [])
    limit

/-- One attempt of `re` matching `Option\s+([A-Za-z0-9]+)\s*\(([^)]+)\)` at the
head of the text (case sensitive, no word boundary). -/
def optionPairMatchAt (cs : List Char) : Option ((String × String) × List Char) :=
  if leadMatches ("Option".data) cs then
    let r1 := cs.drop 6
    if (r1.takeWhile pyIsSpace).isEmpty then none
    else
      let r2 := r1.dropWhile pyIsSpace
      let label := r2.takeWhile Char.isAlphanum
      if label.isEmpty then none
      else
        match (r2.dropWhile Char.isAlphanum).dropWhile pyIsSpace with
        | '(' :: r5 =>
          let name := r5.takeWhile (fun c => c != ')')
          if name.isEmpty then none
          else
            match r5.dropWhile (fun c => c != ')') with
            | ')' :: r6 => some ((⟨label⟩, ⟨name⟩), r6)
            | _ => none
        | _ => none
  else none

/-- `re.findall(r"Option\s+([A-Za-z0-9]+)\s*\(([^)]+)\)", text)`. -/
def scanOptionPairs : Nat → List Char → List (String × String)
  | 0, _ => []
  | _ + 1, [] => []
  | fuel + 1, c :: cs =>
    match optionPairMatchAt (c :: cs) with
    | some (pair, rest) => pair :: scanOptionPairs fuel rest
    | none => scanOptionPairs fuel cs

/-- `_final_decision_requirements` of `decision_workflow.py`. -/
def finalDecisionRequirements (text : String) : List String :=
  if text == "" then []
  else
    let cleanText : String := ⟨removeDoubleStar text.data⟩
    let optionMatches := scanOptionPairs (cleanText.data.length + 1) cleanText.data
    let optionReqs :=
      if optionMatches ≠ [] then
        let descriptions := dedupeKeepOrder
          (optionMatches.map
            (fun p => "Option " ++ p.1 ++ " (" ++ (⟨stripWs p.2.data⟩ : String) ++ ")"))
          4
        if descriptions.length == 1 then
          ["Implement " ++ descriptions.headD "" ++ " as the selected approach."]
        else
          ["Implement a phased rollout combining " ++
            String.intercalate " + " (descriptions.take 3) ++ "."]
      else []
    let lineReqs := (sectionLines cleanText 12).foldl
      (fun acc line =>
        let lowerLine : String := ⟨dropTail (fun c => c == ':') (pyLower line).data⟩
        if ["chosen option", "trade-offs", "trade offs"].contains lowerLine then acc
        else if ["combine", "+"].contains lowerLine then acc
        else if leadMatches ("option ".data) (pyLower line).data then acc
        else if optionMatches ≠ [] ∧ strContains lowerLine ("combine option") then acc
        else if strContains lowerLine ("trade-off") || strContains lowerLine ("trade off") then acc
        else if leadMatches ("Prioritize ".data) line.data
             || leadMatches ("Focus ".data) line.data then
          acc ++ ["Trade-off guardrail: " ++ (⟨dropTail (fun c => c == '.') line.data⟩ : String) ++ "."]
        else if strContains lowerLine ("phased rollout") ∧ strContains lowerLine ("option") then
          acc ++ [(⟨dropTail (fun c => c == '.') line.data⟩ : String)]
        else acc)
      []
    dedupeSemantic (optionReqs ++ lineReqs) 5 (8/10)

/-- `_build_prd_output` of `decision_workflow.py`. -/
def buildPrdOutput (state : GraphStateLite) : PRDOutput :=
  let snapshot := state.decision_snapshot
  let properties : PropsMap :=
    match snapshot with
    | some s => s.properties
    | none => fun _ => none
  let bodyText := snapshotBodyText snapshot
  let bodyLower := pyLower bodyText
  let synthesis : SynthesisMap := state.synthesis.getD {}
  let reviews := state.reviews

  let objective := propertyValue properties ("Strategic Objective")
  let decisionType := propertyValue properties ("Decision Type")
  let primaryKpi := propertyValue properties ("Primary KPI")
  let baseline := propertyValue properties ("Baseline")
  let target := propertyValue properties ("Target")
  let timeHorizon := propertyValue properties ("Time Horizon")
  let probabilityOfSuccess := propertyValue properties ("Probability of Success")
  let owner := propertyValue properties ("Owner")
  let investmentRequired := propertyValue properties ("Investment Required")
  let grossBenefit := propertyValue properties ("12-Month Gross Benefit")
  let riskAdjustedRoi := propertyValue properties ("Risk-Adjusted ROI")

  let executiveSummary := extractDecisionSection bodyText ("Executive Summary")
  let strategicContext := extractDecisionSection bodyText ("1. Strategic Context")
  let problemFraming := extractDecisionSection bodyText ("2. Problem Framing")
  let optionsEvaluated := extractDecisionSection bodyText ("3. Options Evaluated")
  let financialModel := extractDecisionSection bodyText ("4. Financial Model")
  let riskMatrix := extractDecisionSection bodyText ("5. Risk Matrix")
  let finalDecision := extractDecisionSection bodyText ("6. Final Decision")
  let killCriteria := extractDecisionSection bodyText ("7. Kill Criteria")
  let monitoringPlan := extractDecisionSection bodyText ("8. Monitoring Plan")

  let goals := dedupeKeepOrder
    ((if objective ≠ "" then ["Strategic objective: " ++ objective ++ "."] else [])
     ++ (if primaryKpi ≠ "" then
          ["North-star KPI: " ++ primaryKpi ++ "." ++
            (if baseline ≠ "" ∧ target ≠ "" then
              " Baseline " ++ baseline ++ " -> Target " ++ target ++ "." else "")]
        else [])
     ++ (if timeHorizon ≠ "" then ["Planning horizon: " ++ timeHorizon ++ "."] else [])
     ++ sectionLines strategicContext 4)
    8

  let background := dedupeKeepOrder
    (sectionLines executiveSummary 4
     ++ (if decisionType ≠ "" then ["Decision type: " ++ decisionType ++ "."] else [])
     ++ (if owner ≠ "" then ["Decision owner: " ++ owner ++ "."] else []))
    8

  let research := dedupeSemantic
    (sectionLines problemFraming 5 ++ sectionLines optionsEvaluated 5
     ++ sectionLines financialModel 4 ++ sectionLines riskMatrix 4)
    10 (88/100)

  let userStories := dedupeKeepOrder
    (let stories :=
      (if strContains bodyLower ("mobile") then
        ["As a mobile buyer, I want a fast and predictable checkout so I can complete purchases with low friction."]
       else [])
      ++ (if strContains bodyLower ("bundle") || strContains bodyLower ("recommendation") then
        ["As a returning buyer, I want relevant bundles and recommendations so I can discover complementary products quickly."]
       else [])
      ++ (if strContains bodyLower ("international") then
        ["As an international buyer, I want transparent fulfillment and delivery options so I can purchase with confidence."]
       else [])
     if stories.isEmpty then
       ["As a buyer, I want a frictionless purchase flow so I can complete orders quickly and confidently."]
     else stories)
    5

  let requirements := dedupeSemantic
    (finalDecisionRequirements finalDecision ++ reviewsRequiredChanges reviews 5)
    8

  let primaryMetricNorm := if primaryKpi ≠ "" then normalizeSimilarityText primaryKpi else ""
  let telemetry := dedupeSemantic
    ((if primaryKpi ≠ "" then ["Primary metric: " ++ primaryKpi ++ "."] else [])
     ++ (sectionLines monitoringPlan 8).filter
        (fun line =>
          let norm := normalizeSimilarityText line
          !(leadMatches ("primary metric".data) (pyLower line).data)
          && !(primaryMetricNorm ≠ "" ∧
              (norm == primaryMetricNorm || strContains norm primaryMetricNorm
                || strContains primaryMetricNorm norm))))
    8 (88/100)

  let uxUiDesign := dedupeKeepOrder
    ((if strContains bodyLower ("mobile") then
        ["Prioritize a simplified mobile checkout path with fewer steps and clear progress feedback."]
      else [])
     ++ (if strContains bodyLower ("bundle") || strContains bodyLower ("recommendation") then
        ["Design recommendation and bundle surfaces on PDP/cart with clear relevance cues and opt-out controls."]
      else [])
     ++ ["Ensure accessible interaction patterns (contrast, focus order, keyboard support, readable touch targets).",
         "Validate responsive behavior across core mobile breakpoints before rollout."])
    6

  let experiment := dedupeSemantic
    ((if primaryKpi ≠ "" then
        ["Hypothesis: improving checkout and merchandising will increase " ++ primaryKpi ++ "."]
      else [])
     ++ (if probabilityOfSuccess ≠ "" then
        ["Initial probability of success estimate: " ++ probabilityOfSuccess ++ "."] else [])
     ++ (if timeHorizon ≠ "" then ["Experiment horizon: " ++ timeHorizon ++ "."] else [])
     ++ sectionLines killCriteria 4)
    8 (88/100)

  let qa := dedupeKeepOrder
    (let entries :=
      synthesis.blockers.map (fun b => "Open blocker: " ++ b)
      ++ synthesis.conflicts.map (fun c => "Conflict to resolve: " ++ c)
      ++ synthesis.required_revisions.map (fun r => "Required revision: " ++ r)
     if entries.isEmpty then
       ["No additional unresolved questions were captured at synthesis time."]
     else entries)
    8

  let notes := dedupeKeepOrder
    ((if owner ≠ "" then ["Owner: " ++ owner ++ "."] else [])
     ++ (if investmentRequired ≠ "" then
          ["Investment required: " ++ investmentRequired ++ "."] else [])
     ++ (if grossBenefit ≠ "" then
          ["12-month gross benefit estimate: " ++ grossBenefit ++ "."] else [])
     ++ (if riskAdjustedRoi ≠ "" then
          ["Risk-adjusted ROI estimate: " ++ riskAdjustedRoi ++ "."] else [])
     ++ (match synthesis.final_recommendation with
         | some r => if r ≠ "" then ["Chairperson recommendation snapshot: " ++ r ++ "."] else []
         | none => []))
    8

  let risks := dedupeKeepOrder
    (let fromReviews := reviewsRiskEvidence reviews 6
     if fromReviews.isEmpty then
       (sectionLines riskMatrix 4).map (fun line => "Risk matrix: " ++ line)
     else fromReviews)
    8

  let milestones :=
    [(if timeHorizon ≠ "" then
        "Milestone 1 (" ++ timeHorizon ++ " plan): finalize scope, instrumentation, and launch criteria."
      else
        "Milestone 1: Finalize implementation scope, instrumentation plan, and rollout guardrails."),
     "Milestone 2: Ship core checkout + merchandising changes behind a controlled rollout.",
     "Milestone 3: Evaluate experiment outcomes against kill criteria and decide scale-up or rollback."]

  let sections : List (String × List String) :=
    [("Goals", goals), ("Background", background), ("Research", research),
     ("User Stories", userStories), ("Requirements", requirements),
     ("Telemetry", telemetry), ("UX/UI Design", uxUiDesign),
     ("Experiment", experiment), ("Q&A", qa), ("Notes", notes)]

  -- `for section_name, default_line in PRD_SECTION_DEFAULTS.items(): ...`:
  -- the keys of `sections` and of the defaults table coincide, so the loop is
  -- a pointwise default substitution.
  let sectionsFinal := sections.map
    (fun s =>
      if s.2.isEmpty then (s.1, [((PRD_SECTION_DEFAULTS.lookup s.1).getD "")]) else s)

  let scope := dedupeKeepOrder (requirements ++ goals) 8
  let telemetryOut := dedupeKeepOrder telemetry 8

  { title := "PRD for Decision " ++ state.decision_name,
    scope := if scope.isEmpty then
        [((PRD_SECTION_DEFAULTS.lookup ("Requirements")).getD "")] else scope,
    milestones := milestones,
    telemetry := if telemetryOut.isEmpty then
        [((PRD_SECTION_DEFAULTS.lookup ("Telemetry")).getD "")] else telemetryOut,
    risks := if risks.isEmpty then
        ["No explicit risks were captured; complete risk review before execution."] else risks,
    sections := sectionsFinal }

/-! ### `_prd_children` -/

inductive NotionBlock where
  | h1 (text : String)
  | para (text : String)
  | bullet (text : String)
deriving DecidableEq, Repr

/-- The `[:1800]` truncation applied to every block's rich text. -/
def truncate1800 (s : String) : String := ⟨s.data.take 1800⟩

/-- Whether a block is a `heading_1` block. -/
def isH1Block : NotionBlock → Bool
  | NotionBlock.h1 _ => true
  | _ => false

def PRD_SECTION_ORDER : List (String × String) :=
  [("1. Goals", "Goals"), ("2. Background", "Background"), ("3. Research", "Research"),
   ("4. User Stories", "User Stories"), ("5. Requirements", "Requirements"),
   ("6. Telemetry", "Telemetry"), ("7. UX/UI Design", "UX/UI Design"),
   ("8. Experiment", "Experiment"), ("9. Q&A", "Q&A"), ("10. Notes", "Notes")]

/-- One iteration of the `_prd_children` section loop: the section heading and
its deduplicated bullets. -/
def prdSectionSegment (sections : List (String × List String)) (hk : String × String) :
    List NotionBlock :=
  let lines :=
    match sections.lookup hk.2 with
    | some ls =>
      if ls.isEmpty then [((PRD_SECTION_DEFAULTS.lookup hk.2).getD ("To be completed."))]
      else ls
    | none => [((PRD_SECTION_DEFAULTS.lookup hk.2).getD ("To be completed."))]
  NotionBlock.h1 (truncate1800 hk.1)
    :: (dedupeKeepOrder lines 8).map (fun l => NotionBlock.bullet (truncate1800 l))

/-- `_prd_children` of `decision_workflow.py`. -/
def prdChildren (decisionName : String) (prd : Option PRDOutput) : List NotionBlock :=
  let sections := match prd with | some p => p.sections | none => []
  let blocks :=
    [NotionBlock.h1 (truncate1800 ("Product Requirements Document: " ++ decisionName)),
     NotionBlock.para (truncate1800
       ("Generated from the strategic decision document and executive review feedback."))]
    ++ PRD_SECTION_ORDER.foldl (fun acc hk => acc ++ prdSectionSegment sections hk) []
  blocks.take 100

/-- The ten fixed PRD section names (the keys of `PRD_SECTION_DEFAULTS`). -/
def PRD_SECTION_NAMES : List String := PRD_SECTION_DEFAULTS.map Prod.fst

/-- Lookup in a JSON object. -/
def jsonGet (j : Json) (k : String) : Option Json :=
  match j with
  | Json.obj kvs => kvs.lookup k
  | _ => none

/-- Whitespace shape shared by the `_clean_line` intermediates: every
whitespace character is a plain space, and no two spaces are adjacent. -/
def wsNormalized (l : List Char) : Prop :=
  (∀ c ∈ l, pyIsSpace c = true → c = ' ')
  ∧ List.Chain' (fun a b => ¬(a = ' ' ∧ b = ' ')) l

/-! ## Theorems -/

theorem dropWhile_head_false {α : Type} (p : α → Bool) (l : List α) :
    ∀ c r, l.dropWhile p = c :: r → p c = false := by
  induction l with
  | nil => intro c r h; simp [List.dropWhile] at h
  | cons a t ih =>
    intro c r h
    by_cases hp : p a = true
    · rw [List.dropWhile_cons_of_pos hp] at h
      exact ih c r h
    · rw [List.dropWhile_cons_of_neg hp] at h
      cases h
      exact Bool.eq_false_iff.mpr hp

theorem dropLead_head_ok (p : Char → Bool) (l : List Char) :
    (dropLead p l).head?.all (fun c => !p c) = true := by
  unfold dropLead
  cases h : l.dropWhile p with
  | nil => rfl
  | cons c r => simp [dropWhile_head_false p l c r h]

theorem dropTail_eq_rdropWhile (f : Char → Bool) (l : List Char) :
    dropTail f l = l.rdropWhile f := rfl

theorem dropTail_last_ok (p : Char → Bool) (l : List Char) :
    (dropTail p l).getLast?.all (fun c => !p c) = true := by
  rw [dropTail_eq_rdropWhile]
  by_cases hne : l.rdropWhile p = []
  · rw [hne]; rfl
  · have hlast := List.rdropWhile_last_not p l hne
    rw [List.getLast?_eq_getLast _ hne]
    simpa using hlast

theorem isPrefix_head {α : Type} (l₁ l₂ : List α) (h : l₁ <+: l₂) (hne : l₁ ≠ []) :
    l₁.head? = l₂.head? := by
  rcases h with ⟨t, rfl⟩
  cases l₁ with
  | nil => exact absurd rfl hne
  | cons a r => rfl

theorem stripBoth_head_ok (f : Char → Bool) (l : List Char) :
    (stripBoth f l).head?.all (fun c => !f c) = true := by
  unfold stripBoth
  rw [dropTail_eq_rdropWhile]
  by_cases hne : (dropLead f l).rdropWhile f = []
  · rw [hne]; rfl
  · have h1 : (dropLead f l).rdropWhile f <+: dropLead f l := List.rdropWhile_prefix f _
    rw [isPrefix_head _ _ h1 hne]
    exact dropLead_head_ok f l

theorem stripBoth_last_ok (f : Char → Bool) (l : List Char) :
    (stripBoth f l).getLast?.all (fun c => !f c) = true := by
  unfold stripBoth
  exact dropTail_last_ok f _

theorem stripBoth_within (f : Char → Bool) (l : List Char) : stripBoth f l <:+: l := by
  unfold stripBoth
  rw [dropTail_eq_rdropWhile]
  exact List.IsInfix.trans
    (List.IsPrefix.isInfix (List.rdropWhile_prefix f _))
    (List.IsSuffix.isInfix (List.dropWhile_suffix f))

theorem stripBoth_eq_self (f : Char → Bool) (l : List Char)
    (hhead : l.head?.all (fun c => !f c) = true)
    (hlast : l.getLast?.all (fun c => !f c) = true) :
    stripBoth f l = l := by
  unfold stripBoth
  have h1 : dropLead f l = l := by
    unfold dropLead
    cases l with
    | nil => rfl
    | cons c r =>
      have : f c = false := by simpa using hhead
      rw [List.dropWhile_cons_of_neg (by simp [this])]
  rw [h1, dropTail_eq_rdropWhile]
  rw [List.rdropWhile_eq_self_iff]
  intro hl
  rw [List.getLast?_eq_getLast _ hl] at hlast
  simpa using hlast

theorem wsNormalized_of_within (l₁ l₂ : List Char) (h : l₁ <:+: l₂)
    (hn : wsNormalized l₂) : wsNormalized l₁ := by
  obtain ⟨honly, hchain⟩ := hn
  exact ⟨fun c hc => honly c (h.sublist.mem hc), hchain.infix h⟩

theorem getLast?_cons_ne {α : Type} (a : α) (l : List α) (h : l ≠ []) :
    (a :: l).getLast? = l.getLast? := by
  cases l with
  | nil => exact absurd rfl h
  | cons b t =>
    rw [show a :: b :: t = [a] ++ (b :: t) from rfl]
    exact List.getLast?_append_of_ne_nil _ (by simp)

theorem head?_append_ne {α : Type} (l₁ l₂ : List α) (h : l₁ ≠ []) :
    (l₁ ++ l₂).head? = l₁.head? := by
  cases l₁ with
  | nil => exact absurd rfl h
  | cons a t => rfl

theorem joinSpace_cons_ne (t : List Char) (ts : List (List Char)) (h : ts ≠ []) :
    joinSpace (t :: ts) = t ++ ' ' :: joinSpace ts := by
  cases ts with
  | nil => exact absurd rfl h
  | cons t₂ ts₂ => rfl

theorem joinSpace_ne_nil (t : List Char) (ts : List (List Char)) (h : t ≠ []) :
    joinSpace (t :: ts) ≠ [] := by
  cases ts with
  | nil => simpa [joinSpace] using h
  | cons t₂ ts₂ =>
    rw [joinSpace_cons_ne t (t₂ :: ts₂) (by simp)]
    simp

theorem splitWsGo_ne_nil (l : List Char) :
    ∀ cur, cur ≠ [] → splitWsGo cur l ≠ [] := by
  induction l with
  | nil =>
    intro cur h
    simp [splitWsGo, h]
  | cons c cs ih =>
    intro cur h
    simp only [splitWsGo]
    split
    · rw [if_neg (by simpa using h)]
      simp
    · exact ih (c :: cur) (by simp)

theorem joinSplitGo (l : List Char) :
    ∀ cur : List Char,
    (∀ c ∈ l, pyIsSpace c = true → c = ' ') →
    List.Chain' (fun a b => ¬(a = ' ' ∧ b = ' ')) l →
    l.getLast?.all (fun c => !pyIsSpace c) = true →
    (∀ c ∈ cur, pyIsSpace c = false) →
    (cur = [] → l.head?.all (fun c => !pyIsSpace c) = true) →
    joinSpace (splitWsGo cur l) = cur.reverse ++ l := by
  induction l with
  | nil =>
    intro cur _ _ _ _ _
    cases cur with
    | nil => rfl
    | cons a as => simp [splitWsGo, joinSpace]
  | cons c cs ih =>
    intro cur honly hchain hlast hcur hcurhead
    by_cases hsp : pyIsSpace c = true
    · have hc : c = ' ' := honly c (List.mem_cons_self _ _) hsp
      cases cur with
      | nil =>
        have := hcurhead rfl
        simp [hsp] at this
      | cons a as =>
        have hstep : splitWsGo (a :: as) (c :: cs) = (a :: as).reverse :: splitWsGo [] cs := by
          simp [splitWsGo, hsp]
        rw [hstep]
        cases cs with
        | nil =>
          simp [hsp] at hlast
        | cons d ds =>
          have hd : pyIsSpace d = false := by
            have hR := (List.chain'_cons.mp hchain).1
            subst hc
            by_cases hd' : d = ' '
            · exact absurd ⟨rfl, hd'⟩ hR
            · by_cases hws : pyIsSpace d = true
              · exact absurd (honly d (List.mem_cons_of_mem _ (List.mem_cons_self _ _)) hws) hd'
              · exact Bool.eq_false_iff.mpr hws
          have hrec := ih []
            (fun x hx => honly x (List.mem_cons_of_mem _ hx))
            (List.chain'_cons.mp hchain).2
            (by rwa [getLast?_cons_ne c (d :: ds) (by simp)] at hlast)
            (by simp)
            (fun _ => by simp [hd])
          have hne : splitWsGo [] (d :: ds) ≠ [] := by
            have : splitWsGo ([] : List Char) (d :: ds) = splitWsGo [d] ds := by
              simp [splitWsGo, hd]
            rw [this]
            exact splitWsGo_ne_nil ds [d] (by simp)
          rw [joinSpace_cons_ne _ _ hne, hrec]
          simp [hc]
    · have hstep : splitWsGo cur (c :: cs) = splitWsGo (c :: cur) cs := by
        simp [splitWsGo, hsp]
      rw [hstep]
      have hrec := ih (c :: cur)
        (fun x hx => honly x (List.mem_cons_of_mem _ hx))
        (List.chain'_cons'.mp hchain).2
        (by
          cases cs with
          | nil => simp
          | cons d ds => rwa [getLast?_cons_ne c (d :: ds) (by simp)] at hlast)
        (by
          intro x hx
          rcases List.mem_cons.mp hx with rfl | hx
          · exact Bool.eq_false_iff.mpr hsp
          · exact hcur x hx)
        (by intro h; cases h)
      rw [hrec]
      simp

theorem joinSplit_roundtrip (l : List Char)
    (hws : wsNormalized l)
    (hhead : l.head?.all (fun c => !pyIsSpace c) = true)
    (hlast : l.getLast?.all (fun c => !pyIsSpace c) = true) :
    joinSpace (splitWsTokens l) = l := by
  have := joinSplitGo l [] hws.1 hws.2 hlast (by simp) (fun _ => hhead)
  simpa [splitWsTokens] using this

theorem splitWsGo_tokens (l : List Char) :
    ∀ cur, (∀ c ∈ cur, pyIsSpace c = false) →
      ∀ t ∈ splitWsGo cur l, t ≠ [] ∧ ∀ c ∈ t, pyIsSpace c = false := by
  induction l with
  | nil =>
    intro cur hcur t ht
    by_cases h : cur.isEmpty
    · simp [splitWsGo, h] at ht
    · simp [splitWsGo, h] at ht
      subst ht
      refine ⟨by simpa using h, ?_⟩
      intro c hc
      exact hcur c (by simpa using hc)
  | cons a cs ih =>
    intro cur hcur t ht
    simp only [splitWsGo] at ht
    by_cases hsp : pyIsSpace a = true
    · rw [if_pos hsp] at ht
      by_cases hc : cur.isEmpty
      · rw [if_pos hc] at ht
        exact ih [] (by simp) t ht
      · rw [if_neg hc] at ht
        rcases List.mem_cons.mp ht with rfl | ht
        · refine ⟨by simpa using hc, ?_⟩
          intro c hcmem
          exact hcur c (by simpa using hcmem)
        · exact ih [] (by simp) t ht
    · rw [if_neg hsp] at ht
      refine ih (a :: cur) ?_ t ht
      intro c hcmem
      rcases List.mem_cons.mp hcmem with rfl | hcmem
      · exact Bool.eq_false_iff.mpr hsp
      · exact hcur c hcmem

theorem splitWsGo_mem (l : List Char) :
    ∀ cur t, t ∈ splitWsGo cur l → ∀ c ∈ t, c ∈ l ∨ c ∈ cur := by
  induction l with
  | nil =>
    intro cur t ht c hc
    by_cases h : cur.isEmpty
    · simp [splitWsGo, h] at ht
    · simp [splitWsGo, h] at ht
      subst ht
      exact Or.inr (by simpa using hc)
  | cons a cs ih =>
    intro cur t ht c hc
    simp only [splitWsGo] at ht
    by_cases hsp : pyIsSpace a = true
    · rw [if_pos hsp] at ht
      by_cases hcur : cur.isEmpty
      · rw [if_pos hcur] at ht
        rcases ih [] t ht c hc with h | h
        · exact Or.inl (List.mem_cons_of_mem _ h)
        · simp at h
      · rw [if_neg hcur] at ht
        rcases List.mem_cons.mp ht with rfl | ht
        · exact Or.inr (by simpa using hc)
        · rcases ih [] t ht c hc with h | h
          · exact Or.inl (List.mem_cons_of_mem _ h)
          · simp at h
    · rw [if_neg hsp] at ht
      rcases ih (a :: cur) t ht c hc with h | h
      · exact Or.inl (List.mem_cons_of_mem _ h)
      · rcases List.mem_cons.mp h with rfl | h
        · exact Or.inl (List.mem_cons_self _ _)
        · exact Or.inr h

theorem joinSpace_mem (toks : List (List Char)) :
    ∀ c ∈ joinSpace toks, c = ' ' ∨ ∃ t ∈ toks, c ∈ t := by
  induction toks with
  | nil => intro c hc; simp [joinSpace] at hc
  | cons t ts ih =>
    intro c hc
    cases ts with
    | nil =>
      exact Or.inr ⟨t, by simp, by simpa [joinSpace] using hc⟩
    | cons t₂ ts₂ =>
      rw [joinSpace_cons_ne t _ (by simp)] at hc
      rcases List.mem_append.mp hc with h | h
      · exact Or.inr ⟨t, by simp, h⟩
      · rcases List.mem_cons.mp h with rfl | h
        · exact Or.inl rfl
        · rcases ih c h with h | ⟨u, hu, hcu⟩
          · exact Or.inl h
          · exact Or.inr ⟨u, List.mem_cons_of_mem _ hu, hcu⟩

theorem chain_of_no_space (l : List Char) (h : ∀ c ∈ l, pyIsSpace c = false) :
    List.Chain' (fun a b => ¬(a = ' ' ∧ b = ' ')) l := by
  induction l with
  | nil => exact List.chain'_nil
  | cons a t ih =>
    rw [List.chain'_cons']
    constructor
    · intro y _
      intro ⟨ha, _⟩
      have := h a (List.mem_cons_self _ _)
      rw [ha] at this
      simp [pyIsSpace] at this
    · exact ih (fun c hc => h c (List.mem_cons_of_mem _ hc))

theorem joinSpace_props (toks : List (List Char))
    (h : ∀ t ∈ toks, t ≠ [] ∧ ∀ c ∈ t, pyIsSpace c = false) :
    wsNormalized (joinSpace toks)
    ∧ (joinSpace toks).head?.all (fun c => !pyIsSpace c) = true
    ∧ (joinSpace toks).getLast?.all (fun c => !pyIsSpace c) = true := by
  induction toks with
  | nil => exact ⟨⟨by simp [joinSpace], by simp [joinSpace]⟩, rfl, rfl⟩
  | cons t ts ih =>
    obtain ⟨htne, htns⟩ := h t (List.mem_cons_self _ _)
    cases ts with
    | nil =>
      have hj : joinSpace [t] = t := rfl
      rw [hj]
      refine ⟨⟨?_, chain_of_no_space t htns⟩, ?_, ?_⟩
      · intro c hc hsp
        rw [htns c hc] at hsp
        cases hsp
      · cases t with
        | nil => rfl
        | cons a r => simpa using htns a (List.mem_cons_self _ _)
      · cases hte : t.getLast? with
        | none => simp
        | some a =>
          have : a ∈ t := List.mem_of_mem_getLast? hte
          simpa [hte] using htns a this
    | cons t₂ ts₂ =>
      obtain ⟨⟨ihonly, ihchain⟩, ihhead, ihlast⟩ :=
        ih (fun u hu => h u (List.mem_cons_of_mem _ hu))
      have hJne : joinSpace (t₂ :: ts₂) ≠ [] :=
        joinSpace_ne_nil t₂ ts₂ (h t₂ (by simp)).1
      rw [joinSpace_cons_ne t _ (by simp)]
      refine ⟨⟨?_, ?_⟩, ?_, ?_⟩
      · intro c hc hsp
        rcases List.mem_append.mp hc with hmem | hmem
        · rw [htns c hmem] at hsp; cases hsp
        · rcases List.mem_cons.mp hmem with rfl | hmem
          · rfl
          · exact ihonly c hmem hsp
      · rw [List.chain'_append]
        refine ⟨chain_of_no_space t htns, ?_, ?_⟩
        · rw [List.chain'_cons']
          refine ⟨?_, ihchain⟩
          intro y hy
          intro ⟨_, hy'⟩
          cases hh : (joinSpace (t₂ :: ts₂)).head? with
          | none => rw [hh] at hy; cases hy
          | some z =>
            rw [hh] at hy
            cases hy
            rw [hh] at ihhead
            simp [hy'] at ihhead
            simp [pyIsSpace] at ihhead
        · intro x hx y hy
          intro ⟨hx', _⟩
          have : x ∈ t := List.mem_of_mem_getLast? hx
          have := htns x this
          rw [hx'] at this
          simp [pyIsSpace] at this
      · rw [head?_append_ne _ _ htne]
        cases t with
        | nil => exact absurd rfl htne
        | cons a r => simpa using htns a (List.mem_cons_self _ _)
      · rw [List.getLast?_append_of_ne_nil _ (by simp)]
        rw [getLast?_cons_ne _ _ hJne]
        exact ihlast

/-- C1: the gate decision checks the blocked flags before the score: any
blocked reviewer forces "blocked" regardless of the DQS; otherwise DQS < 7.0
gives "revision_required" and DQS ≥ 7.0 (including exactly 7.0) gives
"approved". -/
theorem decide_gate_routes (reviews : List (String × ReviewOutput)) (dqs : ℚ) :
    ((∃ r ∈ reviews, r.2.blocked = true) → decideGate reviews dqs = GateCategory.blocked)
    ∧ ((∀ r ∈ reviews, r.2.blocked = false) → dqs < 7 →
        decideGate reviews dqs = GateCategory.revision_required)
    ∧ ((∀ r ∈ reviews, r.2.blocked = false) → 7 ≤ dqs →
        decideGate reviews dqs = GateCategory.approved) := by
  refine ⟨?_, ?_, ?_⟩
  · rintro ⟨r, hr, hb⟩
    have hany : reviews.any (fun x => x.2.blocked) = true :=
      List.any_eq_true.mpr ⟨r, hr, hb⟩
    simp [decideGate, hany]
  · intro hall hlt
    have hany : reviews.any (fun x => x.2.blocked) = false := by
      simp only [List.any_eq_false]
      intro r hr
      simp [hall r hr]
    simp [decideGate, hany, hlt]
  · intro hall hge
    have hany : reviews.any (fun x => x.2.blocked) = false := by
      simp only [List.any_eq_false]
      intro r hr
      simp [hall r hr]
    simp [decideGate, hany, not_lt.mpr hge]

/-- Witness for C1: one blocked reviewer with DQS 9.5 gives "blocked";
unblocked with DQS 6.999 gives "revision_required"; unblocked with DQS exactly
7.0 gives "approved". -/
theorem decide_gate_routes_witness :
    decideGate [(("ceo" : String), ({ blocked := true } : ReviewOutput))] (19/2)
      = GateCategory.blocked
    ∧ decideGate [(("ceo" : String), ({ blocked := false } : ReviewOutput))] (6999/1000)
      = GateCategory.revision_required
    ∧ decideGate [(("ceo" : String), ({ blocked := false } : ReviewOutput))] 7
      = GateCategory.approved := by
  refine ⟨(decide_gate_routes _ _).1 ⟨_, List.mem_singleton.mpr rfl, rfl⟩,
    (decide_gate_routes _ _).2.1 ?_ (by norm_num),
    (decide_gate_routes _ _).2.2 ?_ (by norm_num)⟩
  · intro r hr
    rw [List.mem_singleton.mp hr]
  · intro r hr
    rw [List.mem_singleton.mp hr]

theorem gateSatisfied_baseline (props : PropsMap) (inferred : Option (List (String × Bool))) :
    gateSatisfied props inferred ("Baseline") = numberPresent (props ("Baseline")) := rfl

theorem gateSatisfied_target (props : PropsMap) (inferred : Option (List (String × Bool))) :
    gateSatisfied props inferred ("Target") = numberPresent (props ("Target")) := rfl

theorem gateSatisfied_horizon (props : PropsMap) (inferred : Option (List (String × Bool))) :
    gateSatisfied props inferred ("Time Horizon") = selectPresent (props ("Time Horizon")) := rfl

theorem gateSatisfied_boolean (props : PropsMap) (inferred : Option (List (String × Bool)))
    (g : String) (hg : g ∈ REQUIRED_BOOLEAN_GATES) :
    gateSatisfied props inferred g = (checkboxTrue (props g) || inferredTrue inferred g) := by
  fin_cases hg <;> rfl

theorem evaluate_required_gates_filter_form (props : PropsMap)
    (inferred : Option (List (String × Bool))) :
    evaluate_required_gates props inferred =
      (["Baseline", "Target", "Time Horizon"] ++ REQUIRED_BOOLEAN_GATES).filter
        (fun g => !gateSatisfied props inferred g) := by
  have hcong : REQUIRED_BOOLEAN_GATES.filter
      (fun gate => !(checkboxTrue (props gate) || inferredTrue inferred gate))
      = REQUIRED_BOOLEAN_GATES.filter (fun g => !gateSatisfied props inferred g) := by
    apply List.filter_congr
    intro g hg
    rw [gateSatisfied_boolean props inferred g hg]
  unfold evaluate_required_gates
  rw [hcong]
  cases hB : numberPresent (props ("Baseline")) <;>
    cases hT : numberPresent (props ("Target")) <;>
      cases hH : selectPresent (props ("Time Horizon")) <;>
        simp [List.filter_append, List.filter_cons,
          gateSatisfied_baseline, gateSatisfied_target, gateSatisfied_horizon, hB, hT, hH]

/-- C2: `evaluate_required_gates` returns `[]` iff Baseline and Target numbers
are present, the Time Horizon selection is non-empty, and each of the six
required boolean gates is satisfied by a true checkbox or a true inferred
check; and the returned list is always the fixed order
Baseline, Target, Time Horizon, then the boolean gates in declared order,
filtered to the unsatisfied ones. -/
theorem evaluate_required_gates_spec (props : PropsMap)
    (inferred : Option (List (String × Bool))) :
    (evaluate_required_gates props inferred = [] ↔
      (numberPresent (props ("Baseline")) = true
        ∧ numberPresent (props ("Target")) = true
        ∧ selectPresent (props ("Time Horizon")) = true
        ∧ ∀ g ∈ REQUIRED_BOOLEAN_GATES,
            (checkboxTrue (props g) || inferredTrue inferred g) = true))
    ∧ evaluate_required_gates props inferred =
        (["Baseline", "Target", "Time Horizon"] ++ REQUIRED_BOOLEAN_GATES).filter
          (fun g => !gateSatisfied props inferred g) := by
  refine ⟨?_, evaluate_required_gates_filter_form props inferred⟩
  rw [evaluate_required_gates_filter_form props inferred, List.filter_eq_nil_iff]
  have bool_flip : ∀ b : Bool, (¬(!b) = true) ↔ b = true := by
    intro b; cases b <;> simp
  constructor
  · intro h
    refine ⟨?_, ?_, ?_, ?_⟩
    · have := (bool_flip _).mp (h ("Baseline") (by simp))
      rwa [gateSatisfied_baseline] at this
    · have := (bool_flip _).mp (h ("Target") (by simp))
      rwa [gateSatisfied_target] at this
    · have := (bool_flip _).mp (h ("Time Horizon") (by simp))
      rwa [gateSatisfied_horizon] at this
    · intro g hg
      have := (bool_flip _).mp (h g (by simp [hg]))
      rwa [gateSatisfied_boolean props inferred g hg] at this
  · rintro ⟨h1, h2, h3, h4⟩ g hg
    refine (bool_flip _).mpr ?_
    simp only [List.mem_append, List.mem_cons, List.not_mem_nil, or_false] at hg
    rcases hg with ((rfl | rfl | rfl) | hg)
    · rwa [gateSatisfied_baseline]
    · rwa [gateSatisfied_target]
    · rwa [gateSatisfied_horizon]
    · rw [gateSatisfied_boolean props inferred g hg]
      exact h4 g hg

/-- C8: for every input text and every governance check name, an explicit
"<check name>: no" substring (case-insensitively) forces that check's inferred
value to false, whatever trigger keywords are present. -/
theorem infer_explicit_no_forces_false (text gate : String)
    (hg : gate ∈ GOVERNANCE_CHECK_NAMES)
    (hno : strContains (pyLower text) (pyLower gate ++ ": no") = true) :
    (inferGovernanceChecks text).lookup gate = some false := by
  fin_cases hg <;>
    simp [inferGovernanceChecks, List.lookup, explicitlyNo, hno]

/-- Witness for C8: a text whose keywords trigger "Risk Matrix Completed" but
which also declares "risk matrix completed: no" infers the check as false. -/
theorem infer_explicit_no_forces_false_witness :
    ("Risk Matrix Completed" ∈ GOVERNANCE_CHECK_NAMES)
    ∧ (inferGovernanceChecks
        ("Risk matrix completed: no. The risk matrix lists mitigation steps.")).lookup
        ("Risk Matrix Completed") = some false
    ∧ hasAny (pyLower ("Risk matrix completed: no. The risk matrix lists mitigation steps."))
        ["risk matrix"] = true := by
  refine ⟨by decide, infer_explicit_no_forces_false _ _ (by decide) (by decide), by decide⟩

/-- C7: if the Compliance provider's first response does not parse and the
second parses to a dict, evaluation performs exactly the two budgeted calls
(`max_tokens` 1200 then the larger 2400) and returns the second response's
payload with the reviewer identity stamped on it; no third call exists in the
plan. -/
theorem compliance_retry_two_calls (provider : Nat → String × String)
    (kvs : List (String × Json))
    (h1 : complianceParseJson (provider 0).1 = none)
    (h2 : complianceParseJson (provider 1).1 = some (Json.obj kvs)) :
    complianceEvaluate provider =
      (jsonSetKey ("agent") (Json.str ("Compliance")) (Json.obj kvs), [1200, 2400])
    ∧ (1200 : Nat) < 2400 := by
  refine ⟨?_, by norm_num⟩
  unfold complianceEvaluate
  rcases hp0 : provider 0 with ⟨c1, f1⟩
  rcases hp1 : provider 1 with ⟨c2, f2⟩
  rw [hp0] at h1
  rw [hp1] at h2
  simp only at h1 h2
  simp [h1, h2]

/-- Witness for C7: a malformed first response followed by a valid JSON second
response yields the stamped second payload after the two planned calls. -/
theorem compliance_retry_two_calls_witness :
    complianceEvaluate
      (fun n => if n == 0 then (("malformed-json" : String), ("length" : String))
                else (("\x7b\"thesis\": \"Recovered on retry\"\x7d" : String), ("stop" : String)))
      = (Json.obj [(("thesis" : String), Json.str ("Recovered on retry")),
                   (("agent" : String), Json.str ("Compliance"))], [1200, 2400]) := by
  have h := compliance_retry_two_calls
    (fun n => if n == 0 then (("malformed-json" : String), ("length" : String))
              else (("\x7b\"thesis\": \"Recovered on retry\"\x7d" : String), ("stop" : String)))
    [(("thesis" : String), Json.str ("Recovered on retry"))]
    (by rfl) (by rfl)
  exact h.1

/-- Counterexample for C6: on empty completion content the CFO adapter's
placeholder blocker is "CFO model returned empty content.", which does not say
"no parseable JSON object" (that blocker text belongs to the no-braces parse
failure). -/
theorem cfo_empty_blocker_counterexample :
    jsonGet (cfoEvaluate ("")) ("blockers")
      = some (Json.arr [Json.str ("CFO model returned empty content.")])
    ∧ strContains ("CFO model returned empty content.") ("no parseable JSON object") = false := by
  exact ⟨rfl, by decide⟩

/-- C6 (amended): empty content yields the placeholder whose blocker is
"CFO model returned empty content."; content "not-json-at-all" yields the
placeholder whose blocker says "no parseable JSON object"; both placeholders
have score 1, confidence 0, blocked, one blocker and a single severity-8
"llm_output_error" risk; and whenever strict parsing fails but the brace
substring parses to a dict, the embedded payload is returned with the
reviewer identity stamped.  The adapter is a total function: it never raises. -/
theorem cfo_evaluate_spec :
    cfoEvaluate ("") = placeholderJson ("CFO") ("CFO model returned empty content.")
    ∧ cfoEvaluate ("not-json-at-all")
        = placeholderJson ("CFO") ("CFO output had no parseable JSON object.")
    ∧ strContains ("CFO output had no parseable JSON object.") ("no parseable JSON object") = true
    ∧ (∀ name reason : String,
        jsonGet (placeholderJson name reason) ("score") = some (Json.num 1)
        ∧ jsonGet (placeholderJson name reason) ("confidence") = some (Json.num 0)
        ∧ jsonGet (placeholderJson name reason) ("blocked") = some (Json.bool true)
        ∧ jsonGet (placeholderJson name reason) ("blockers") = some (Json.arr [Json.str reason])
        ∧ jsonGet (placeholderJson name reason) ("risks")
            = some (Json.arr [Json.obj
                [("type", Json.str ("llm_output_error")),
                 ("severity", Json.num 8),
                 ("evidence", Json.str reason)]]))
    ∧ (∀ (content : String) (s e : Nat) (kvs : List (String × Json)),
        content ≠ "" →
        jsonLoads content = none →
        findIdx '{' content.data = some s →
        rfindIdx '}' content.data = some e →
        s < e →
        jsonLoads (⟨sliceIncl content.data s e⟩ : String) = some (Json.obj kvs) →
        cfoEvaluate content = jsonSetKey ("agent") (Json.str ("CFO")) (Json.obj kvs)) := by
  refine ⟨rfl, rfl, by decide, ?_, ?_⟩
  · intro name reason
    exact ⟨rfl, rfl, rfl, rfl, rfl⟩
  · intro content s e kvs hne hstrict hs he hlt hsub
    unfold cfoEvaluate
    rw [if_neg (by simpa using hne), hstrict, hs, he]
    simp [hlt, hsub]

/-- Witness for C6's embedded-payload case: valid JSON wrapped in prose is
extracted, its fields kept, and the agent field stamped. -/
theorem cfo_evaluate_spec_witness :
    cfoEvaluate ("prefix text \x7b\"thesis\": \"Embedded JSON\", \"blocked\": false\x7d trailing")
      = Json.obj [(("thesis" : String), Json.str ("Embedded JSON")),
                  (("blocked" : String), Json.bool false),
                  (("agent" : String), Json.str ("CFO"))] := by
  have h := cfo_evaluate_spec.2.2.2.2
    ("prefix text \x7b\"thesis\": \"Embedded JSON\", \"blocked\": false\x7d trailing")
    12 56
    [(("thesis" : String), Json.str ("Embedded JSON")), (("blocked" : String), Json.bool false)]
    (by decide) rfl rfl rfl (by norm_num) rfl
  exact h

theorem checkboxPass_fold (entries : List (String × Bool)) :
    ∀ (u0 : List (String × Bool)) (p0 : PropsMap),
    ∃ Δ, (entries.foldl checkboxStep (u0, p0)).1 = u0 ++ Δ
      ∧ (∀ u ∈ Δ, u.2 = true)
      ∧ (∀ g b, (g, b) ∈ Δ → (g, true) ∈ entries
          ∧ ∃ p, p0 g = some p ∧ p.checkbox = some false
            ∧ (entries.foldl checkboxStep (u0, p0)).2 g
                = some { p with checkbox := some true })
      ∧ (∀ g, (∀ b, (g, b) ∉ Δ) → (entries.foldl checkboxStep (u0, p0)).2 g = p0 g) := by
  induction entries with
  | nil =>
    intro u0 p0
    exact ⟨[], by simp, by simp, by simp, by simp⟩
  | cons e rest ih =>
    intro u0 p0
    rcases e with ⟨gate, isMet⟩
    by_cases hmet : isMet = true
    · subst hmet
      cases hp : p0 gate with
      | none =>
        have hstep : checkboxStep (u0, p0) (gate, true) = (u0, p0) := by
          simp [checkboxStep, hp]
        obtain ⟨Δ, h1, h2, h3, h4⟩ := ih u0 p0
        refine ⟨Δ, ?_, h2, ?_, ?_⟩
        · simpa [List.foldl_cons, hstep] using h1
        · intro g b hgb
          obtain ⟨hmem, p, hpg, hcb, hres⟩ := h3 g b hgb
          exact ⟨List.mem_cons_of_mem _ hmem, p, hpg, hcb, by
            simpa [List.foldl_cons, hstep] using hres⟩
        · intro g hg
          simpa [List.foldl_cons, hstep] using h4 g hg
      | some p =>
        by_cases hcb : p.checkbox.isSome ∧ p.checkbox.getD false = false
        · have hcbv : p.checkbox = some false := by
            rcases hcb with ⟨h5, h6⟩
            cases hx : p.checkbox with
            | none => rw [hx] at h5; simp at h5
            | some b => rw [hx] at h6; simp at h6; simp [h6]
          have hstep : checkboxStep (u0, p0) (gate, true)
              = (u0 ++ [(gate, true)],
                 setProp p0 gate { p with checkbox := some true }) := by
            simp [checkboxStep, hp, hcbv]
          set p1 := setProp p0 gate { p with checkbox := some true } with hp1
          obtain ⟨Δ, h1, h2, h3, h4⟩ := ih (u0 ++ [(gate, true)]) p1
          have hp1gate : p1 gate = some { p with checkbox := some true } := by
            simp [hp1, setProp]
          have hgateΔ : ∀ b, (gate, b) ∉ Δ := by
            intro b hb
            obtain ⟨_, q, hq, hqcb, _⟩ := h3 gate b hb
            rw [hp1gate] at hq
            cases hq
            simp at hqcb
          refine ⟨(gate, true) :: Δ, ?_, ?_, ?_, ?_⟩
          · simp only [List.foldl_cons, hstep]
            simpa using h1
          · intro u hu
            rcases List.mem_cons.mp hu with rfl | hu
            · rfl
            · exact h2 u hu
          · intro g b hgb
            rcases List.mem_cons.mp hgb with heq | hgb
            · cases heq
              refine ⟨List.mem_cons_self _ _, p, hp, hcbv, ?_⟩
              have := h4 gate hgateΔ
              simp only [List.foldl_cons, hstep]
              rw [this, hp1gate]
            · obtain ⟨hmem, q, hq, hqcb, hres⟩ := h3 g b hgb
              have hgne : g ≠ gate := by
                rintro rfl
                rw [hp1gate] at hq
                cases hq
                simp at hqcb
              have hq0 : p0 g = some q := by
                rw [← hq]
                simp [hp1, setProp, hgne]
              exact ⟨List.mem_cons_of_mem _ hmem, q, hq0, hqcb, by
                simpa [List.foldl_cons, hstep] using hres⟩
          · intro g hg
            have hgne : g ≠ gate := by
              rintro rfl
              exact hg true (List.mem_cons_self _ _)
            have hg' : ∀ b, (g, b) ∉ Δ := by
              intro b hb
              exact hg b (List.mem_cons_of_mem _ hb)
            have := h4 g hg'
            simp only [List.foldl_cons, hstep]
            rw [this]
            simp [hp1, setProp, hgne]
        · have hstep : checkboxStep (u0, p0) (gate, true) = (u0, p0) := by
            rcases hx : p.checkbox with _ | b
            · simp [checkboxStep, hp, hx]
            · have hb : b = true := by
                by_contra hb
                exact hcb ⟨by simp [hx], by simp [hx, Bool.eq_false_iff.mpr hb]⟩
              simp [checkboxStep, hp, hx, hb]
          obtain ⟨Δ, h1, h2, h3, h4⟩ := ih u0 p0
          refine ⟨Δ, by simpa [List.foldl_cons, hstep] using h1, h2, ?_, ?_⟩
          · intro g b hgb
            obtain ⟨hmem, q, hq, hqcb, hres⟩ := h3 g b hgb
            exact ⟨List.mem_cons_of_mem _ hmem, q, hq, hqcb, by
              simpa [List.foldl_cons, hstep] using hres⟩
          · intro g hg
            simpa [List.foldl_cons, hstep] using h4 g hg
    · have hisMet : isMet = false := Bool.eq_false_iff.mpr hmet
      subst hisMet
      have hstep : checkboxStep (u0, p0) (gate, false) = (u0, p0) := by
        simp [checkboxStep]
      obtain ⟨Δ, h1, h2, h3, h4⟩ := ih u0 p0
      refine ⟨Δ, by simpa [List.foldl_cons, hstep] using h1, h2, ?_, ?_⟩
      · intro g b hgb
        obtain ⟨hmem, q, hq, hqcb, hres⟩ := h3 g b hgb
        exact ⟨List.mem_cons_of_mem _ hmem, q, hq, hqcb, by
          simpa [List.foldl_cons, hstep] using hres⟩
      · intro g hg
        simpa [List.foldl_cons, hstep] using h4 g hg

/-- C9: the build step's checkbox auto-correction only ever records
`checkbox: True` updates, only for gates inferred true whose existing page
property is checkbox-shaped with a falsy value; it never sets a checkbox to
false, never creates a property that did not exist, flips only the checkbox
field of the updated property, and leaves every untouched property exactly as
it was. -/
theorem checkbox_autocorrect_frame (body : String) (props : PropsMap) :
    (∀ u ∈ (checkboxPass (inferGovernanceChecks body) props).1, u.2 = true)
    ∧ (∀ g b, (g, b) ∈ (checkboxPass (inferGovernanceChecks body) props).1 →
        (g, true) ∈ inferGovernanceChecks body
        ∧ ∃ p, props g = some p ∧ p.checkbox = some false
          ∧ (checkboxPass (inferGovernanceChecks body) props).2 g
              = some { p with checkbox := some true })
    ∧ (∀ g, (∀ b, (g, b) ∉ (checkboxPass (inferGovernanceChecks body) props).1) →
        (checkboxPass (inferGovernanceChecks body) props).2 g = props g) := by
  obtain ⟨Δ, h1, h2, h3, h4⟩ := checkboxPass_fold (inferGovernanceChecks body) [] props
  have hΔ : (checkboxPass (inferGovernanceChecks body) props).1 = Δ := by
    simpa [checkboxPass] using h1
  refine ⟨?_, ?_, ?_⟩
  · intro u hu
    exact h2 u (hΔ ▸ hu)
  · intro g b hgb
    exact h3 g b (hΔ ▸ hgb)
  · intro g hg
    exact h4 g (hΔ ▸ hg)

/-- Witness for C9: a text inferring "Strategic Alignment Brief" with an
existing unchecked checkbox records exactly that update and sets the in-memory
checkbox to true. -/
theorem checkbox_autocorrect_frame_witness :
    ((("Strategic Alignment Brief" : String), true)
        ∈ (checkboxPass
            (inferGovernanceChecks ("strategic context"))
            (fun n => if n == "Strategic Alignment Brief"
                      then some { checkbox := some false } else none)).1)
    ∧ ((("Strategic Alignment Brief" : String), true)
        ∈ inferGovernanceChecks ("strategic context")) := by
  have h := (checkbox_autocorrect_frame ("strategic context")
    (fun n => if n == "Strategic Alignment Brief"
              then some { checkbox := some false } else none)).2.1
    ("Strategic Alignment Brief") true (by decide)
  exact ⟨by decide, h.1⟩

theorem cleanPrefixStage_within (n2 : List Char) : cleanPrefixStage n2 <:+: n2 := by
  unfold cleanPrefixStage
  cases hf : LINE_PREFIXES_TO_STRIP.find?
      (fun p => leadMatches p.data (n2.map pyLowerChar)) with
  | none => exact List.infix_refl n2
  | some p =>
    exact List.IsInfix.trans (stripBoth_within pyIsSpace _)
      (List.IsSuffix.isInfix (List.drop_suffix _ _))

theorem cleanStage_invariants (s : List Char) (maxLen : Nat) :
    wsNormalized (cleanStage s maxLen)
    ∧ (cleanStage s maxLen).head?.all (fun c => !pyIsSpace c) = true
    ∧ (cleanStage s maxLen).getLast?.all (fun c => !pyIsSpace c) = true
    ∧ (cleanStage s maxLen).length ≤ maxLen
    ∧ '`' ∉ cleanStage s maxLen := by
  have htoks := splitWsGo_tokens
    ((((removeDoubleStar s).filter (fun c => c != '`')).map
      (fun c => if c == '\t' then ' ' else c))) [] (by simp)
  have hJ := joinSpace_props _ htoks
  have hstage : cleanStage s maxLen
      = stripWs ((cleanPrefixStage (stripBoth bulletStripChar
          (joinSpace (splitWsTokens (((removeDoubleStar s).filter (fun c => c != '`')).map
            (fun c => if c == '\t' then ' ' else c)))))).take maxLen) := rfl
  have hinfJ : cleanStage s maxLen <:+:
      joinSpace (splitWsTokens (((removeDoubleStar s).filter (fun c => c != '`')).map
        (fun c => if c == '\t' then ' ' else c))) := by
    rw [hstage]
    refine List.IsInfix.trans (stripBoth_within pyIsSpace _) ?_
    refine List.IsInfix.trans (List.IsPrefix.isInfix (List.take_prefix _ _)) ?_
    exact List.IsInfix.trans (cleanPrefixStage_within _) (stripBoth_within bulletStripChar _)
  refine ⟨wsNormalized_of_within _ _ hinfJ hJ.1, ?_, ?_, ?_, ?_⟩
  · rw [hstage]; exact stripBoth_head_ok pyIsSpace _
  · rw [hstage]; exact stripBoth_last_ok pyIsSpace _
  · rw [hstage]
    calc (stripWs ((cleanPrefixStage _).take maxLen)).length
        ≤ ((cleanPrefixStage _).take maxLen).length :=
          (stripBoth_within pyIsSpace _).sublist.length_le
      _ ≤ maxLen := List.length_take_le _ _
  · intro hmem
    have hmemJ := hinfJ.sublist.mem hmem
    rcases joinSpace_mem _ _ hmemJ with h | ⟨t, ht, hct⟩
    · cases h
    · rcases splitWsGo_mem _ [] t ht _ hct with h | h
      · rcases List.mem_map.mp h with ⟨d, hd, hdeq⟩
        by_cases hdt : (d == '\t') = true
        · rw [if_pos hdt] at hdeq; cases hdeq
        · rw [if_neg hdt] at hdeq
          subst hdeq
          have := (List.mem_filter.mp hd).2
          simp at this
      · simp at h

theorem removeDoubleStar_eq_self (l : List Char)
    (h : listContainsSub ['*', '*'] l = false) : removeDoubleStar l = l := by
  induction l with
  | nil => rfl
  | cons c r ih =>
    have h' : leadMatches ['*', '*'] (c :: r) = false
        ∧ listContainsSub ['*', '*'] r = false :=
      Bool.or_eq_false_iff.mp h
    rw [removeDoubleStar.eq_def]
    split
    · rename_i rest heq
      injection heq with h1 h2
      subst h1; subst h2
      simp [leadMatches] at h'
    · rename_i c₂ rest₂ hne heq
      injection heq with h1 h2
      subst h1; subst h2
      exact congrArg (c :: ·) (ih h'.2)
    · rename_i heq
      exact absurd heq (by simp)

/-- `_clean_line`'s normalisation pipeline is the identity on a string that is
already whitespace-normalised, has no leading or trailing blank, fits the
length bound, contains no backtick and no `**`, does not start
(case-insensitively) with a strip prefix and has no bullet-strip character at
either end. -/
theorem cleanStage_self (y : List Char)
    (hws : wsNormalized y)
    (hhead : y.head?.all (fun c => !pyIsSpace c) = true)
    (hlast : y.getLast?.all (fun c => !pyIsSpace c) = true)
    (hlen : y.length ≤ 260)
    (hbq : '`' ∉ y)
    (hdd : listContainsSub ['*', '*'] y = false)
    (hpre : LINE_PREFIXES_TO_STRIP.all
      (fun p => !leadMatches p.data (y.map pyLowerChar)) = true)
    (hbhead : y.head?.all (fun c => !bulletStripChar c) = true)
    (hblast : y.getLast?.all (fun c => !bulletStripChar c) = true) :
    cleanStage y 260 = y := by
  have e1 : removeDoubleStar y = y := removeDoubleStar_eq_self y hdd
  have e2 : y.filter (fun c => c != '`') = y := by
    apply List.filter_eq_self.mpr
    intro c hc
    have hne : c ≠ '`' := fun hcc => hbq (hcc ▸ hc)
    simpa using hne
  have e3 : y.map (fun c => if c == '\t' then ' ' else c) = y := by
    have hid : ∀ c ∈ y, (if c == '\t' then ' ' else c) = c := by
      intro c hc
      by_cases hct : c = '\t'
      · subst hct
        have := hws.1 '\t' hc (by decide)
        exact absurd this (by decide)
      · simp [hct]
    exact (List.map_congr_left hid).trans (List.map_id y)
  have e4 : joinSpace (splitWsTokens y) = y := joinSplit_roundtrip y hws hhead hlast
  have e5 : stripBoth bulletStripChar y = y := stripBoth_eq_self bulletStripChar y hbhead hblast
  have e6 : cleanPrefixStage y = y := by
    have hnone : LINE_PREFIXES_TO_STRIP.find?
        (fun p => leadMatches p.data (y.map pyLowerChar)) = none :=
      List.find?_eq_none.mpr (fun p hp => by
        simpa using List.all_eq_true.mp hpre p hp)
    unfold cleanPrefixStage
    rw [hnone]
  have e7 : stripWs y = y := stripBoth_eq_self pyIsSpace y hhead hlast
  show stripWs ((cleanPrefixStage (stripBoth bulletStripChar
      (joinSpace (splitWsTokens (((removeDoubleStar y).filter (fun c => c != '`')).map
        (fun c => if c == '\t' then ' ' else c)))))).take 260) = y
  rw [e1, e2, e3, e4, e5, e6, List.take_of_length_le hlen, e7]

theorem cleanLineCore_eq (x : List Char) (n : Nat) :
    cleanLineCore x n
      = if cleanDropSet (cleanStage x n) = true then [] else cleanStage x n := by
  unfold cleanLineCore
  with_reducible rfl

theorem cleanLine_data (s : String) :
    (cleanLine s).data = cleanLineCore s.data 260 := by
  unfold cleanLine
  with_reducible rfl

/-- C5 counterexample: `_clean_line` is not idempotent.  A line whose cleaned
form still begins with one of the strip prefixes is stripped again on the
second pass, so cleaning an already-cleaned line can change it. -/
theorem clean_line_not_idempotent :
    cleanLine (cleanLine ("decision requirement: decision requirement: x"))
      ≠ cleanLine ("decision requirement: decision requirement: x") := by
  decide

/-- C5 (amended): `_clean_line` is a fixed point on any of its outputs that
contains no `**`, whose lower-cased form does not begin with one of the seven
strip prefixes, and whose first and last characters are not in the bullet strip
set; without those provisos a second application can strip the line further. -/
theorem clean_line_idempotent (s : String)
    (hdd : strContains (cleanLine s) ("**") = false)
    (hpre : LINE_PREFIXES_TO_STRIP.all
      (fun p => !leadMatches p.data ((cleanLine s).data.map pyLowerChar)) = true)
    (hbhead : (cleanLine s).data.head?.all (fun c => !bulletStripChar c) = true)
    (hblast : (cleanLine s).data.getLast?.all (fun c => !bulletStripChar c) = true) :
    cleanLine (cleanLine s) = cleanLine s := by
  have hgoal : cleanLineCore (cleanLine s).data 260 = (cleanLine s).data := by
    by_cases hdrop : cleanDropSet (cleanStage s.data 260) = true
    · have hy : (cleanLine s).data = [] := by
        rw [cleanLine_data, cleanLineCore_eq, if_pos hdrop]
      rw [hy]
      decide
    · have hy : (cleanLine s).data = cleanStage s.data 260 := by
        rw [cleanLine_data, cleanLineCore_eq, if_neg hdrop]
      obtain ⟨hws, hhead, hlast, hlen, hbq⟩ := cleanStage_invariants s.data 260
      have hstage : cleanStage (cleanLine s).data 260 = (cleanLine s).data := by
        rw [hy]
        exact cleanStage_self _ hws hhead hlast hlen hbq
          (by rw [← hy]; exact hdd) (by rw [← hy]; exact hpre)
          (by rw [← hy]; exact hbhead) (by rw [← hy]; exact hblast)
      rw [cleanLineCore_eq, hstage, if_neg (by rw [hy]; exact hdrop)]
  have hout : cleanLine (cleanLine s) = ⟨cleanLineCore (cleanLine s).data 260⟩ := by
    unfold cleanLine
    with_reducible rfl
  rw [hout, hgoal]

theorem clean_line_idempotent_witness :
    cleanLine (cleanLine (" - **Budget plan** approved "))
      = cleanLine (" - **Budget plan** approved ") :=
  clean_line_idempotent (" - **Budget plan** approved ")
    (by decide) (by decide) (by decide) (by decide)

theorem dedupeKeepOrderGo_length (limit : Nat) :
    ∀ (lines seen : List String) (count : Nat), count < limit →
      (dedupeKeepOrderGo limit seen count lines).length ≤ limit - count := by
  intro lines
  induction lines with
  | nil => intro seen count h; simp [dedupeKeepOrderGo]
  | cons l rest ih =>
    intro seen count h
    simp only [dedupeKeepOrderGo]
    split
    · exact ih seen count h
    · split
      · exact ih seen count h
      · simp only [List.length_cons]
        split
        · simp; omega
        · have := ih (pyLower (cleanLine l) :: seen) (count + 1) (by omega)
          simp at this ⊢
          omega

theorem dedupeKeepOrder_length (lines : List String) (limit : Nat) (h : 0 < limit) :
    (dedupeKeepOrder lines limit).length ≤ limit := by
  have := dedupeKeepOrderGo_length limit lines [] 0 h
  simpa [dedupeKeepOrder] using this

theorem prdSectionSegment_length (sections : List (String × List String))
    (hk : String × String) : (prdSectionSegment sections hk).length ≤ 9 := by
  simp only [prdSectionSegment, List.length_cons, List.length_map]
  have := dedupeKeepOrder_length
    (match sections.lookup hk.2 with
     | some ls =>
       if ls.isEmpty then [((PRD_SECTION_DEFAULTS.lookup hk.2).getD ("To be completed."))]
       else ls
     | none => [((PRD_SECTION_DEFAULTS.lookup hk.2).getD ("To be completed."))])
    8 (by omega)
  omega

theorem prdFold_length (sections : List (String × List String)) :
    ∀ (l : List (String × String)) (acc : List NotionBlock),
      (l.foldl (fun a hk => a ++ prdSectionSegment sections hk) acc).length
        ≤ acc.length + 9 * l.length := by
  intro l
  induction l with
  | nil => intro acc; simp
  | cons hk rest ih =>
    intro acc
    simp only [List.foldl_cons]
    have h1 := ih (acc ++ prdSectionSegment sections hk)
    have h2 := prdSectionSegment_length sections hk
    simp only [List.length_append, List.length_cons] at h1 ⊢
    omega

theorem bullets_filter_h1 (ls : List String) :
    (ls.map (fun l => NotionBlock.bullet (truncate1800 l))).filter isH1Block = [] := by
  induction ls with
  | nil => rfl
  | cons l rest ih => simp [isH1Block, ih]

theorem prdFold_filter_h1 (sections : List (String × List String)) :
    ∀ (l : List (String × String)) (acc : List NotionBlock),
      (l.foldl (fun a hk => a ++ prdSectionSegment sections hk) acc).filter isH1Block
        = acc.filter isH1Block
          ++ l.map (fun hk => NotionBlock.h1 (truncate1800 hk.1)) := by
  intro l
  induction l with
  | nil => intro acc; simp
  | cons hk rest ih =>
    intro acc
    simp only [List.foldl_cons, List.map_cons]
    rw [ih (acc ++ prdSectionSegment sections hk), List.filter_append]
    have hseg : (prdSectionSegment sections hk).filter isH1Block
        = [NotionBlock.h1 (truncate1800 hk.1)] := by
      simp only [prdSectionSegment, List.filter_cons]
      rw [bullets_filter_h1]
      rfl
    rw [hseg]
    simp

/-- C10: the block list `_prd_children` builds has at most 92 blocks (2 intro
blocks, 10 headings, at most 8 bullets per section), so the `[:100]`
truncation removes nothing; the first block is the PRD title heading and the
heading blocks are exactly the title followed by one heading per fixed
section, in order. -/
theorem prd_children_spec (name : String) (prd : Option PRDOutput) :
    (prdChildren name prd).length ≤ 92
    ∧ (prdChildren name prd).head?
        = some (NotionBlock.h1
            (truncate1800 ("Product Requirements Document: " ++ name)))
    ∧ (prdChildren name prd).filter isH1Block
        = NotionBlock.h1 (truncate1800 ("Product Requirements Document: " ++ name))
          :: PRD_SECTION_ORDER.map (fun hk => NotionBlock.h1 (truncate1800 hk.1)) := by
  obtain ⟨sections, hsecdef⟩ :
      ∃ s, prdChildren name prd =
        ([NotionBlock.h1 (truncate1800 ("Product Requirements Document: " ++ name)),
          NotionBlock.para (truncate1800
            ("Generated from the strategic decision document and executive review feedback."))]
         ++ PRD_SECTION_ORDER.foldl
             (fun acc hk => acc ++ prdSectionSegment s hk) []).take 100 := by
    cases prd with
    | none => exact ⟨[], rfl⟩
    | some p => exact ⟨p.sections, rfl⟩
  have hlen92 :
      ([NotionBlock.h1 (truncate1800 ("Product Requirements Document: " ++ name)),
        NotionBlock.para (truncate1800
          ("Generated from the strategic decision document and executive review feedback."))]
       ++ PRD_SECTION_ORDER.foldl
           (fun acc hk => acc ++ prdSectionSegment sections hk) []).length ≤ 92 := by
    have := prdFold_length sections PRD_SECTION_ORDER []
    have hord : PRD_SECTION_ORDER.length = 10 := rfl
    rw [hord] at this
    simp only [List.length_append, List.length_cons, List.length_nil] at this ⊢
    omega
  have h100 :
      ([NotionBlock.h1 (truncate1800 ("Product Requirements Document: " ++ name)),
        NotionBlock.para (truncate1800
          ("Generated from the strategic decision document and executive review feedback."))]
       ++ PRD_SECTION_ORDER.foldl
           (fun acc hk => acc ++ prdSectionSegment sections hk) []).length ≤ 100 :=
    le_trans hlen92 (by omega)
  have htake := List.take_of_length_le h100
  rw [hsecdef, htake]
  refine ⟨hlen92, rfl, ?_⟩
  rw [List.filter_append, prdFold_filter_h1 sections PRD_SECTION_ORDER []]
  simp [isH1Block]

theorem dedupeSemanticGo_sublist (limit : Nat) (sim : ℚ) :
    ∀ (lines normOut : List String) (count : Nat),
      (dedupeSemanticGo limit sim normOut count lines).Sublist
        (lines.map (fun l => cleanLine l)) := by
  intro lines
  induction lines with
  | nil => intro normOut count; simp [dedupeSemanticGo]
  | cons l rest ih =>
    intro normOut count
    simp only [dedupeSemanticGo, List.map_cons]
    split
    · exact (ih normOut count).cons _
    · split
      · exact (ih normOut count).cons _
      · split
        · exact (List.nil_sublist _).cons₂ _
        · exact (ih _ _).cons₂ _

theorem dedupeSemanticGo_length (limit : Nat) (sim : ℚ) :
    ∀ (lines normOut : List String) (count : Nat), count < limit →
      (dedupeSemanticGo limit sim normOut count lines).length ≤ limit - count := by
  intro lines
  induction lines with
  | nil => intro normOut count h; simp [dedupeSemanticGo]
  | cons l rest ih =>
    intro normOut count h
    simp only [dedupeSemanticGo]
    split
    · exact ih normOut count h
    · split
      · exact ih normOut count h
      · simp only [List.length_cons]
        split
        · simp; omega
        · have := ih (normOut ++ [semanticKey (cleanLine l)]) (count + 1) (by omega)
          omega

theorem dedupeSemanticGo_pairwise (limit : Nat) (sim : ℚ) :
    ∀ (lines normOut : List String) (count : Nat),
      List.Pairwise
        (fun x y => semanticDup sim (semanticKey y) (semanticKey x) = false)
        (dedupeSemanticGo limit sim normOut count lines)
      ∧ (∀ y ∈ dedupeSemanticGo limit sim normOut count lines, ∀ p ∈ normOut,
          semanticDup sim (semanticKey y) p = false) := by
  intro lines
  induction lines with
  | nil => intro normOut count; simp [dedupeSemanticGo]
  | cons l rest ih =>
    intro normOut count
    simp only [dedupeSemanticGo]
    split
    · exact ih normOut count
    · split
      · exact ih normOut count
      · next hany =>
        have hnot : ∀ p ∈ normOut, semanticDup sim (semanticKey (cleanLine l)) p = false := by
          intro p hp
          have h1 : normOut.any
              (fun prior => semanticDup sim (semanticKey (cleanLine l)) prior) = false := by
            cases hx : normOut.any
                (fun prior => semanticDup sim (semanticKey (cleanLine l)) prior)
            · rfl
            · exact absurd hx hany
          rw [List.any_eq_false] at h1
          have := h1 p hp
          cases hx : semanticDup sim (semanticKey (cleanLine l)) p
          · rfl
          · exact absurd hx this
        split
        · constructor
          · exact List.pairwise_singleton _ _
          · intro y hy p hp
            rw [List.mem_singleton] at hy
            subst hy
            exact hnot p hp
        · obtain ⟨ihp, ihm⟩ := ih (normOut ++ [semanticKey (cleanLine l)]) (count + 1)
          constructor
          · refine List.Pairwise.cons ?_ ihp
            intro y hy
            exact ihm y hy (semanticKey (cleanLine l)) (by simp)
          · intro y hy p hp
            rcases List.mem_cons.mp hy with rfl | hy
            · exact hnot p hp
            · exact ihm y hy p (by simp [hp])

theorem ratio_blue_red : ratioQ ("blue") ("red") = 2/7 := by
  have hM : matchTotal 7 (("blue" : String).data) (("red" : String).data) = 1 := rfl
  have hl1 : ("blue" : String).data.length = 4 := rfl
  have hl2 : ("red" : String).data.length = 3 := rfl
  simp only [ratioQ, hl1, hl2]
  norm_num [hM]

theorem semanticDup_blue_red : semanticDup (86/100) ("blue") ("red") = false := by
  simp only [semanticDup]
  rw [show (("blue" : String) == "red") = false from rfl, ratio_blue_red]
  simp only [Bool.false_or]
  rw [decide_eq_false]
  norm_num

/-- Counterexample for C4: with a requested cap of 0 the loop appends once
before checking the bound, so the result has one element, exceeding the cap. -/
theorem dedupe_semantic_cap_counterexample :
    ¬ ((dedupeSemantic [("alpha" : String)] 0 (86/100)).length ≤ 0) := by
  have h : (dedupeSemantic [("alpha" : String)] 0 (86/100)).length = 1 := rfl
  omega

/-- C4 (amended: cap at least 1): semantic dedup is order-preserving (the
output is a sublist of the cleaned input, first occurrences surviving),
returns at most the requested cap of items, and no two surviving items have
equal semantic keys or a similarity ratio at or above the threshold (each
later survivor was tested against every earlier survivor's key); two lines
with similarity below the threshold may both survive, as the "red"/"blue"
instance shows.  With a cap of 0 one item can still be returned. -/
theorem dedupe_semantic_spec (lines : List String) (limit : Nat) (sim : ℚ)
    (h : 1 ≤ limit) :
    (dedupeSemantic lines limit sim).Sublist (lines.map (fun l => cleanLine l))
    ∧ (dedupeSemantic lines limit sim).length ≤ limit
    ∧ List.Pairwise
        (fun x y => semanticDup sim (semanticKey y) (semanticKey x) = false)
        (dedupeSemantic lines limit sim)
    ∧ dedupeSemantic [("red" : String), ("blue" : String)] 8 (86/100) = ["red", "blue"]
    ∧ ratioQ ("blue") ("red") < 86/100 := by
  refine ⟨dedupeSemanticGo_sublist limit sim lines [] 0, ?_, ?_, ?_, ?_⟩
  · have := dedupeSemanticGo_length limit sim lines [] 0 (by omega)
    simpa [dedupeSemantic] using this
  · exact (dedupeSemanticGo_pairwise limit sim lines [] 0).1
  · show dedupeSemanticGo 8 (86/100) [] 0 [("red" : String), ("blue" : String)]
      = ["red", "blue"]
    simp only [dedupeSemanticGo]
    simp [semanticDup_blue_red,
      show semanticKey ("red") = "red" from rfl,
      show semanticKey ("blue") = "blue" from rfl,
      show cleanLine ("red") = "red" from rfl,
      show cleanLine ("blue") = "blue" from rfl,
      show (cleanLine ("red") == "") = false from rfl,
      show (cleanLine ("blue") == "") = false from rfl]
  · rw [ratio_blue_red]; norm_num

/-- Witness for C4: at cap 8 the "red"/"blue" input returns at most 8 items. -/
theorem dedupe_semantic_spec_witness :
    (dedupeSemantic [("red" : String), ("blue" : String)] 8 (86/100)).length ≤ 8 :=
  (dedupe_semantic_spec [("red" : String), ("blue" : String)] 8 (86/100) (by omega)).2.1

theorem dedupeKeepOrderGo_mem (limit : Nat) :
    ∀ (lines seen : List String) (count : Nat) (z : String),
      z ∈ dedupeKeepOrderGo limit seen count lines → ∃ l ∈ lines, z = cleanLine l := by
  intro lines
  induction lines with
  | nil => intro seen count z hz; simp [dedupeKeepOrderGo] at hz
  | cons l rest ih =>
    intro seen count z hz
    simp only [dedupeKeepOrderGo] at hz
    split at hz
    · obtain ⟨l', hl', he⟩ := ih seen count z hz
      exact ⟨l', List.mem_cons_of_mem _ hl', he⟩
    · split at hz
      · obtain ⟨l', hl', he⟩ := ih seen count z hz
        exact ⟨l', List.mem_cons_of_mem _ hl', he⟩
      · rcases List.mem_cons.mp hz with rfl | hz2
        · exact ⟨l, List.mem_cons_self _ _, rfl⟩
        · split at hz2
          · simp at hz2
          · obtain ⟨l', hl', he⟩ := ih _ _ z hz2
            exact ⟨l', List.mem_cons_of_mem _ hl', he⟩

theorem isLabelOnlyLine_eq (line : String) :
    isLabelOnlyLine line = labelCondOfCleaned (cleanLineCore line.data 260) := by
  unfold isLabelOnlyLine
  with_reducible rfl

/-- Every line `_section_lines` emits is the cleaned form of a line that
survived the `_is_label_only_line` filter, and since `_is_label_only_line`
tests exactly the label condition of that cleaned form, no emitted line is
label-only. -/
theorem sectionLines_label_free (text : String) (n : Nat) :
    ∀ z ∈ sectionLines text n, labelCondOfCleaned z.data = false := by
  intro z hz
  simp only [sectionLines] at hz
  split at hz
  · simp at hz
  · simp only [dedupeKeepOrder] at hz
    obtain ⟨l, hl, he⟩ := dedupeKeepOrderGo_mem n _ [] 0 z hz
    have hlab : isLabelOnlyLine l = false := by
      have := (List.mem_filter.mp hl).2
      simpa using this
    have hcond : labelCondOfCleaned (cleanLineCore l.data 260) = false := by
      rw [← isLabelOnlyLine_eq]; exact hlab
    rw [he, cleanLine_data]
    exact hcond

theorem ifDefault_ne_nil (k : String) (v : List String) :
    (if v.isEmpty then [((PRD_SECTION_DEFAULTS.lookup k).getD "")] else v) ≠ [] := by
  by_cases h : v.isEmpty
  · rw [if_pos h]; simp
  · rw [if_neg h]
    intro hv
    exact h (by rw [hv]; rfl)

theorem mapDefault_cons (p : String × List String) (rest : List (String × List String)) :
    ((p :: rest).map
        (fun s => if s.2.isEmpty then (s.1, [((PRD_SECTION_DEFAULTS.lookup s.1).getD "")])
                  else s))
      = (p.1, if p.2.isEmpty then [((PRD_SECTION_DEFAULTS.lookup p.1).getD "")] else p.2)
        :: (rest.map
            (fun s => if s.2.isEmpty then (s.1, [((PRD_SECTION_DEFAULTS.lookup s.1).getD "")])
                      else s)) := by
  simp only [List.map_cons]
  congr 1
  by_cases h : p.2.isEmpty
  · rw [if_pos h, if_pos h]
  · rw [if_neg h, if_neg h]

/-- The `sections` field `_build_prd_output` produces is always the default
substitution map applied to a ten-entry list with the fixed section names in
order. -/
theorem buildPrdOutput_sections_shape (state : GraphStateLite) :
    ∃ g b r u req t ux e q n : List String,
      (buildPrdOutput state).sections =
        ([("Goals", g), ("Background", b), ("Research", r),
          ("User Stories", u), ("Requirements", req), ("Telemetry", t),
          ("UX/UI Design", ux), ("Experiment", e), ("Q&A", q), ("Notes", n)].map
          (fun s => if s.2.isEmpty then (s.1, [((PRD_SECTION_DEFAULTS.lookup s.1).getD "")])
                    else s)) :=
  ⟨_, _, _, _, _, _, _, _, _, _, rfl⟩

/-- C3 counterexample: a snapshot whose body is only the label-only line
"Criteria" still yields a requirements document whose Requirements section
contains exactly that string, because reviewer `required_changes` entries are
copied into the Requirements section after only line cleaning, with no
label-only filtering. -/
theorem prd_label_leak_counterexample :
    isLabelOnlyLine ("Criteria") = true
    ∧ ((buildPrdOutput
        { decision_snapshot := some { section_excerpt := [{ content := "Criteria" }] },
          reviews := [(("CTO" : String), { required_changes := ["Criteria"] })],
          synthesis := none,
          decision_name := "d" }).sections.lookup ("Requirements"))
        = some [("Criteria" : String)] :=
  ⟨rfl, rfl⟩

/-- C3 (amended): every one of the ten fixed section names maps to a non-empty
list in the built requirements document for every input (empty sections get
their fixed default sentence), and no line extracted from the snapshot body by
`_section_lines` is label-only — in particular the body path never emits
"Chosen option:", "Trade-offs:" or "Criteria"; label-only strings can still
enter output sections through reviewer `required_changes` or synthesis text,
which are not filtered. -/
theorem prd_sections_spec (state : GraphStateLite) (text : String) (n : Nat) :
    (∀ name ∈ PRD_SECTION_NAMES, ∃ ls,
        ((buildPrdOutput state).sections.lookup name) = some ls ∧ ls ≠ [])
    ∧ (∀ z ∈ sectionLines text n, labelCondOfCleaned z.data = false)
    ∧ ("Chosen option:" : String) ∉ sectionLines text n
    ∧ ("Trade-offs:" : String) ∉ sectionLines text n
    ∧ ("Criteria" : String) ∉ sectionLines text n := by
  obtain ⟨g, b, r, u, req, t, ux, e, q, nn, hshape⟩ := buildPrdOutput_sections_shape state
  refine ⟨?_, sectionLines_label_free text n, ?_, ?_, ?_⟩
  · intro name hname
    have hnames : name = "Goals" ∨ name = "Background" ∨ name = "Research"
        ∨ name = "User Stories" ∨ name = "Requirements" ∨ name = "Telemetry"
        ∨ name = "UX/UI Design" ∨ name = "Experiment" ∨ name = "Q&A"
        ∨ name = "Notes" := by
      simpa [PRD_SECTION_NAMES, PRD_SECTION_DEFAULTS] using hname
    rcases hnames with rfl|rfl|rfl|rfl|rfl|rfl|rfl|rfl|rfl|rfl <;>
      (rw [hshape]; simp only [mapDefault_cons, List.map_nil];
       exact ⟨_, rfl, ifDefault_ne_nil _ _⟩)
  · intro hmem
    exact absurd (sectionLines_label_free text n _ hmem) (by decide)
  · intro hmem
    exact absurd (sectionLines_label_free text n _ hmem) (by decide)
  · intro hmem
    exact absurd (sectionLines_label_free text n _ hmem) (by decide)

theorem prd_sections_spec_witness :
    ∃ ls, (((buildPrdOutput { decision_name := "d" }).sections.lookup ("Goals")))
        = some ls ∧ ls ≠ [] :=
  (prd_sections_spec { decision_name := "d" } ("x") 6).1 ("Goals") (by decide)

end Boardroom
